import Mathlib

/-!
Shallow embedding of the backtest simulation engine of the bybit-trading-bot
repository, together with theorems settling the frozen claims about it.

The embedding follows the Python source:
  src/backtest.py                              (class Backtester, SMA crossover)
  src/strategies/trend_reversal/backtest.py    (class TrendReversalBacktester)
  src/strategies/sma_crossover/bot.py          (TradingBot.get_signal)

Prices and monetary amounts are rationals (Python floats, modelled exactly);
timestamps are naturals (milliseconds since epoch).  Python dictionaries used
as trade records become a single record type whose optional fields model
absent keys.  Pandas NaN indicator values become Option.
-/

set_option maxHeartbeats 1000000

namespace BybitBot

/-- Trade side stored in the "type" key of a trade record. -/
inductive Side where
  | BUY
  | SELL
  deriving DecidableEq

/-- Exit reason strings used by the trend reversal backtester. -/
inductive ExitReason where
  | STOP_LOSS
  | TAKE_PROFIT
  | TIME_EXIT
  | END_OF_TEST
  deriving DecidableEq

/-- Position state: Python uses None for flat and the string "long". -/
inductive Pos where
  | flat
  | long
  deriving DecidableEq

/-- Signal values "buy" and "sell" (None becomes Option.none). -/
inductive Signal where
  | buy
  | sell
  deriving DecidableEq

/-- One trade record appended to the ledger.  Python appends a dict; keys that
a given append does not set are modelled as none (profit, profit_pct and
exit_reason are only set on SELL records, exit_reason only by the trend
reversal variant, portfolio_value only by the crossover variant). -/
structure Trade where
  timestamp : Nat
  side : Side
  price : ℚ
  quantity : ℚ
  profit : Option ℚ := none
  profit_pct : Option ℚ := none
  exit_reason : Option ExitReason := none
  portfolio_value : Option ℚ := none
  balance_after : ℚ
  deriving DecidableEq

/-- Calendar date of a millisecond timestamp: pandas to_datetime(ts).date()
for nonnegative timestamps is the number of whole days since the epoch. -/
def dateOf (ts : Nat) : Nat := ts / 86400000

namespace TrendReversal

/-- Configuration constants of strategies/trend_reversal/config.py that the
backtester reads (module level constants become an explicit record). -/
structure TRConfig where
  TREND_SMA_PERIOD : Nat
  TREND_LOOKBACK : Nat
  MIN_RED_CANDLE_PCT : ℚ
  MAX_RED_CANDLE_PCT : ℚ
  TAKE_PROFIT_PCT : ℚ
  STOP_LOSS_PCT : ℚ
  MAX_HOLD_CANDLES : Nat
  TRADE_QUANTITY : ℚ
  MAX_DAILY_TRADES : Nat

/-- One raw OHLCV bar (the open field is renamed, open being a Lean keyword). -/
structure Bar where
  timestamp : Nat
  open_ : ℚ
  high : ℚ
  low : ℚ
  close : ℚ
  deriving DecidableEq

/-- Rolling mean of window w at index i over the close column:
pandas rolling(window=w).mean() is defined from index w-1 on. -/
def sma_at (w : Nat) (closes : List ℚ) (i : Nat) : Option ℚ :=
  if w ≤ i + 1 then some ((((closes.take (i + 1)).drop (i + 1 - w)).sum) / w) else none

/-- The sma_rising column: sma(i) > sma(i-1), with any NaN comparing False
(pandas shift(1) yields NaN at index 0). -/
def sma_rising (w : Nat) (closes : List ℚ) (i : Nat) : Bool :=
  match sma_at w closes i, (if i = 0 then none else sma_at w closes (i - 1)) with
  | some a, some b => decide (b < a)
  | _, _ => false

/-- The sma_rising_count column, built by the Python loop: a running counter
incremented while sma_rising holds and reset to 0 otherwise. -/
def sma_rising_count (w : Nat) (closes : List ℚ) : Nat → Nat
  | 0 => if sma_rising w closes 0 then 1 else 0
  | i + 1 => if sma_rising w closes (i + 1) then sma_rising_count w closes i + 1 else 0

/-- Indicator enriched bar: the dataframe row handed to the simulation loop. -/
structure TRFrame where
  timestamp : Nat
  open_ : ℚ
  high : ℚ
  low : ℚ
  close : ℚ
  sma : Option ℚ
  sma_rising_count : Nat
  is_red : Bool
  candle_pct : ℚ
  in_uptrend : Bool
  deriving DecidableEq

/-- Default bar used by list indexing (never read in-range). -/
def dfltBar : Bar := ⟨0, 0, 0, 0, 0⟩

/-- TrendReversalBacktester.calculate_indicators: derives the sma,
sma_rising_count, is_red, candle_pct and in_uptrend columns.  A NaN sma makes
the close > sma comparison False, hence in_uptrend False. -/
def calculate_indicators (cfg : TRConfig) (bars : List Bar) : List TRFrame :=
  let closes := bars.map (·.close)
  (List.range bars.length).map (fun i =>
    let b := bars.getD i dfltBar
    let m := sma_at cfg.TREND_SMA_PERIOD closes i
    let cnt := sma_rising_count cfg.TREND_SMA_PERIOD closes i
    { timestamp := b.timestamp
      open_ := b.open_
      high := b.high
      low := b.low
      close := b.close
      sma := m
      sma_rising_count := cnt
      is_red := decide (b.close < b.open_)
      candle_pct := max 0 ((b.open_ - b.close) / b.open_ * 100)
      in_uptrend :=
        match m with
        | some v => decide (v < b.close) && decide (cfg.TREND_LOOKBACK ≤ cnt)
        | none => false })

/-- TrendReversalBacktester.is_valid_entry. -/
def is_valid_entry (cfg : TRConfig) (row : TRFrame) : Bool :=
  row.in_uptrend && row.is_red
    && decide (cfg.MIN_RED_CANDLE_PCT ≤ row.candle_pct)
    && decide (row.candle_pct ≤ cfg.MAX_RED_CANDLE_PCT)

/-- Mutable state of a TrendReversalBacktester instance during run(). -/
structure TRState where
  balance : ℚ
  position : Pos
  position_size : ℚ
  entry_price : ℚ
  entry_candle_idx : Nat
  daily_trades : Nat
  current_day : Option Nat
  trades : List Trade
  deriving DecidableEq

/-- State right after __init__ with a given initial balance. -/
def initTRState (b : ℚ) : TRState :=
  { balance := b, position := .flat, position_size := 0, entry_price := 0
    entry_candle_idx := 0, daily_trades := 0, current_day := none, trades := [] }

/-- TrendReversalBacktester.simulate_buy. -/
def simulate_buy (cfg : TRConfig) (s : TRState) (price : ℚ) (ts : Nat)
    (candle_idx : Nat) : TRState :=
  let cost0 := cfg.TRADE_QUANTITY * price
  let size := if s.balance < cost0 then s.balance / price else cfg.TRADE_QUANTITY
  let cost := if s.balance < cost0 then s.balance else cost0
  { s with
    balance := s.balance - cost
    position := .long
    position_size := size
    entry_price := price
    entry_candle_idx := candle_idx
    trades := s.trades ++
      [{ timestamp := ts, side := .BUY, price := price, quantity := size
         balance_after := s.balance - cost }] }

/-- TrendReversalBacktester.simulate_sell: returns the Python return value
together with the updated state. -/
def simulate_sell (s : TRState) (price : ℚ) (ts : Nat)
    (reason : ExitReason) : Bool × TRState :=
  if s.position ≠ .long ∨ s.position_size = 0 then (false, s)
  else
    let proceeds := s.position_size * price
    let profit := proceeds - s.position_size * s.entry_price
    let profit_pct := (price - s.entry_price) / s.entry_price * 100
    (true,
      { s with
        balance := s.balance + proceeds
        position := .flat
        position_size := 0
        entry_price := 0
        entry_candle_idx := 0
        trades := s.trades ++
          [{ timestamp := ts, side := .SELL, price := price
             quantity := s.position_size, profit := some profit
             profit_pct := some profit_pct, exit_reason := some reason
             balance_after := s.balance + proceeds }] })

/-- TrendReversalBacktester.check_exit_conditions: returns the exit price and
reason, or none for the Python (None, None). -/
def check_exit_conditions (cfg : TRConfig) (s : TRState) (row : TRFrame)
    (candle_idx : Nat) : Option (ℚ × ExitReason) :=
  if s.position ≠ .long then none
  else
    let take_profit_price := s.entry_price * (1 + cfg.TAKE_PROFIT_PCT / 100)
    let stop_loss_price := s.entry_price * (1 - cfg.STOP_LOSS_PCT / 100)
    if row.low ≤ stop_loss_price then some (stop_loss_price, .STOP_LOSS)
    else if take_profit_price ≤ row.high then some (take_profit_price, .TAKE_PROFIT)
    else if (cfg.MAX_HOLD_CANDLES : ℤ) ≤ (candle_idx : ℤ) - (s.entry_candle_idx : ℤ)
    then some (row.close, .TIME_EXIT)
    else none

/-- Entry half of one loop iteration of run(): try a new entry when flat and
below the daily cap. -/
def entryStep (cfg : TRConfig) (s : TRState) (i : Nat) (row : TRFrame) : TRState :=
  if s.position = .flat ∧ s.daily_trades < cfg.MAX_DAILY_TRADES then
    if is_valid_entry cfg row then
      let s3 := simulate_buy cfg s row.close row.timestamp i
      { s3 with daily_trades := s3.daily_trades + 1 }
    else s
  else s

/-- One iteration of the run() loop body for bar index i: daily counter reset,
exit check while long, then entry check. -/
def processBar (cfg : TRConfig) (s : TRState) (i : Nat) (row : TRFrame) : TRState :=
  let day := dateOf row.timestamp
  let s1 :=
    if s.current_day ≠ some day
    then { s with current_day := some day, daily_trades := 0 }
    else s
  let s2 :=
    if s1.position = .long then
      match check_exit_conditions cfg s1 row i with
      | some (ep, er) => (simulate_sell s1 ep row.timestamp er).2
      | none => s1
    else s1
  entryStep cfg s2 i row

/-- The for-loop of run(), threading the dataframe index. -/
def runLoop (cfg : TRConfig) : TRState → Nat → List TRFrame → TRState
  | s, _, [] => s
  | s, i, r :: rest => runLoop cfg (processBar cfg s i r) (i + 1) rest

/-- TrendReversalBacktester.run on an indicator enriched series: the loop from
the backtest start index, then the forced END_OF_TEST close if still long. -/
def TRrun (cfg : TRConfig) (b0 : ℚ) (start : Nat) (frames : List TRFrame) : TRState :=
  let s := runLoop cfg (initTRState b0) start (frames.drop start)
  match frames.getLast? with
  | some lastRow =>
      if s.position = .long
      then (simulate_sell s lastRow.close lastRow.timestamp .END_OF_TEST).2
      else s
  | none => s

/-- Number of BUY records in a ledger whose timestamp falls on day d. -/
def buyCount (L : List Trade) (d : Nat) : Nat :=
  (L.filter (fun t => decide (t.side = Side.BUY) && decide (dateOf t.timestamp = d))).length

/-- Statistics record produced by TrendReversalBacktester.print_results.  The
profit_factor field models what the report shows: none when the line is not
printed (no losing trades), some none when it prints float inf, some (some x)
when it prints the finite value x. -/
structure TRStats where
  total_trades : Nat
  winning : Nat
  losing : Nat
  total_profit : ℚ
  win_rate : ℚ
  avg_win : ℚ
  avg_loss : ℚ
  profit_factor : Option (Option ℚ)
  deriving DecidableEq

/-- Python t.get("profit", 0). -/
def tradeProfit (t : Trade) : ℚ := t.profit.getD 0

/-- The SELL records of a ledger. -/
def sellTrades (L : List Trade) : List Trade :=
  L.filter (fun t => decide (t.side = Side.SELL))

/-- SELL records with profit strictly greater than zero. -/
def winningTrades (L : List Trade) : List Trade :=
  (sellTrades L).filter (fun t => decide (0 < tradeProfit t))

/-- SELL records with profit at most zero. -/
def losingTrades (L : List Trade) : List Trade :=
  (sellTrades L).filter (fun t => decide (tradeProfit t ≤ 0))

/-- TrendReversalBacktester.print_results as a pure function of the ledger:
none models the early "No trades executed" return. -/
def computeStats (L : List Trade) : Option TRStats :=
  let sells := sellTrades L
  if sells.length = 0 then none
  else
    let winners := winningTrades L
    let losers := losingTrades L
    let total_profit := (sells.map tradeProfit).sum
    let win_rate := (winners.length : ℚ) / (sells.length : ℚ) * 100
    let avg_win :=
      if winners.length ≠ 0 then (winners.map tradeProfit).sum / winners.length else 0
    let avg_loss :=
      if losers.length ≠ 0 then (losers.map tradeProfit).sum / losers.length else 0
    let profit_factor : Option (Option ℚ) :=
      if losers.length ≠ 0 then
        let total_wins := (winners.map tradeProfit).sum
        let total_losses := |(losers.map tradeProfit).sum|
        if 0 < total_losses then some (some (total_wins / total_losses)) else some none
      else none
    some
      { total_trades := sells.length, winning := winners.length
        losing := losers.length, total_profit := total_profit
        win_rate := win_rate, avg_win := avg_win, avg_loss := avg_loss
        profit_factor := profit_factor }

end TrendReversal

namespace Crossover

/-- Indicator enriched dataframe row of the crossover backtester; NaN moving
averages are none. -/
structure CFrame where
  timestamp : Nat
  close : ℚ
  sma_short : Option ℚ
  sma_long : Option ℚ
  deriving DecidableEq

/-- Default row used by out of range indexing (never read in-range). -/
def dfltCFrame : CFrame := ⟨0, 0, none, none⟩

/-- Pandas iloc with Python index semantics: a negative index counts from the
end of the frame. -/
def iloc (df : List CFrame) (j : ℤ) : CFrame :=
  if j < 0 then df.getD (df.length + j).toNat dfltCFrame
  else df.getD j.toNat dfltCFrame

/-- The previous row read by the loop body: df.iloc[i - 1]. -/
def prevRow (df : List CFrame) (i : Nat) : CFrame :=
  iloc df ((i : ℤ) - 1)

/-- Comparison of two possibly-NaN values: any NaN operand compares False. -/
def optLE (a b : Option ℚ) : Bool :=
  match a, b with
  | some x, some y => decide (x ≤ y)
  | _, _ => false

/-- Strict comparison with NaN semantics. -/
def optLT (a b : Option ℚ) : Bool :=
  match a, b with
  | some x, some y => decide (x < y)
  | _, _ => false

/-- Buy crossover condition: previous sma_short <= previous sma_long and
current sma_short > current sma_long. -/
def enterLongCond (previous current : CFrame) : Bool :=
  optLE previous.sma_short previous.sma_long && optLT current.sma_long current.sma_short

/-- Sell crossover condition: previous sma_short >= previous sma_long and
current sma_short < current sma_long. -/
def exitLongCond (previous current : CFrame) : Bool :=
  optLE previous.sma_long previous.sma_short && optLT current.sma_short current.sma_long

/-- TradingBot.get_signal of the live bot: early return, buy checked first. -/
def get_signal (previous current : CFrame) : Option Signal :=
  if enterLongCond previous current then some .buy
  else if exitLongCond previous current then some .sell
  else none

/-- The signal variable of Backtester.run: the buy assignment may be
overwritten by the sell assignment. -/
def loopSignal (previous current : CFrame) : Option Signal :=
  let s : Option Signal := if enterLongCond previous current then some .buy else none
  if exitLongCond previous current then some .sell else s

/-- Mutable state of a Backtester instance during run, including the local
last_signal variable of the loop. -/
structure CState where
  balance : ℚ
  position : Pos
  position_size : ℚ
  entry_price : ℚ
  last_signal : Option Signal
  trades : List Trade
  deriving DecidableEq

/-- Crossover state right after __init__ with a given initial balance. -/
def initCState (b : ℚ) : CState :=
  { balance := b, position := .flat, position_size := 0, entry_price := 0
    last_signal := none, trades := [] }

/-- Backtester.simulate_buy. -/
def simulate_buy (qty : ℚ) (s : CState) (price : ℚ) (ts : Nat) : CState :=
  let cost0 := qty * price
  let size := if s.balance < cost0 then s.balance / price else qty
  let cost := if s.balance < cost0 then s.balance else cost0
  { s with
    balance := s.balance - cost
    position := .long
    position_size := size
    entry_price := price
    trades := s.trades ++
      [{ timestamp := ts, side := .BUY, price := price, quantity := size
         portfolio_value := some ((s.balance - cost) + size * price)
         balance_after := s.balance - cost }] }

/-- Backtester.simulate_sell: the crossover trade record has no exit reason
key, which the shared record type shows as exit_reason = none. -/
def simulate_sell (s : CState) (price : ℚ) (ts : Nat) : Bool × CState :=
  if s.position ≠ .long ∨ s.position_size = 0 then (false, s)
  else
    let proceeds := s.position_size * price
    let profit := proceeds - s.position_size * s.entry_price
    let profit_pct := (price - s.entry_price) / s.entry_price * 100
    (true,
      { s with
        balance := s.balance + proceeds
        position := .flat
        position_size := 0
        entry_price := 0
        trades := s.trades ++
          [{ timestamp := ts, side := .SELL, price := price
             quantity := s.position_size, profit := some profit
             profit_pct := some profit_pct
             portfolio_value := some (s.balance + proceeds)
             balance_after := s.balance + proceeds }] })

/-- Trade execution part of the loop body, given an actionable signal that
differs from last_signal. -/
def crossExec (qty : ℚ) (s : CState) (sg : Signal) (price : ℚ) (ts : Nat) : CState :=
  if sg = .buy ∧ s.position ≠ .long then
    { simulate_buy qty s price ts with last_signal := some .buy }
  else if sg = .sell ∧ s.position = .long then
    { (simulate_sell s price ts).2 with last_signal := some .sell }
  else s

/-- One iteration of the Backtester.run loop for dataframe index i: skip when
the current moving averages are NaN, otherwise compute the signal from the
previous row (df.iloc[i-1]) and act on it when it differs from last_signal. -/
def crossStep (qty : ℚ) (df : List CFrame) (s : CState) (i : Nat) : CState :=
  let current := iloc df (i : ℤ)
  let previous := prevRow df i
  match current.sma_short, current.sma_long with
  | some _, some _ =>
      match loopSignal previous current with
      | some sg =>
          if some sg ≠ s.last_signal then crossExec qty s sg current.close current.timestamp
          else s
      | none => s
  | _, _ => s

/-- The for-loop of Backtester.run over the dataframe indices. -/
def crossLoop (qty : ℚ) (df : List CFrame) : CState → List Nat → CState
  | s, [] => s
  | s, i :: rest => crossLoop qty df (crossStep qty df s i) rest

/-- Backtester.run on an indicator enriched series: iterate the indices from
the backtest start index, then force-close any open position at the last
close. -/
def crossRun (qty : ℚ) (df : List CFrame) (b0 : ℚ) (start : Nat) : CState :=
  let s := crossLoop qty df (initCState b0) (List.range' start (df.length - start))
  match df.getLast? with
  | some lastRow =>
      if s.position = .long
      then (simulate_sell s lastRow.close lastRow.timestamp).2
      else s
  | none => s

end Crossover

namespace Crossover

/-- Winning trades as filtered by Backtester.print_results: SELL records of
the whole ledger with positive profit. -/
def winningTradesCross (L : List Trade) : List Trade :=
  L.filter (fun t => decide (t.side = Side.SELL)
    && decide (0 < TrendReversal.tradeProfit t))

/-- Losing trades as filtered by Backtester.print_results. -/
def losingTradesCross (L : List Trade) : List Trade :=
  L.filter (fun t => decide (t.side = Side.SELL)
    && decide (TrendReversal.tradeProfit t ≤ 0))

/-- Backtester.print_results of the crossover variant as a pure function of
the ledger.  The profit factor line is guarded by
`if losing_trades and avg_loss != 0`, and inside it the
`if losing_trades else float(inf)` conditional is kept as written even
though its infinity arm is unreachable under the guard. -/
def computeStatsCross (L : List Trade) : Option TrendReversal.TRStats :=
  let sells := TrendReversal.sellTrades L
  if sells.length = 0 then none
  else
    let winners := winningTradesCross L
    let losers := losingTradesCross L
    let total_profit := (sells.map TrendReversal.tradeProfit).sum
    let win_rate :=
      if 0 < sells.length
      then (winners.length : ℚ) / (sells.length : ℚ) * 100 else 0
    let avg_win :=
      if winners.length ≠ 0
      then (winners.map TrendReversal.tradeProfit).sum / winners.length else 0
    let avg_loss :=
      if losers.length ≠ 0
      then (losers.map TrendReversal.tradeProfit).sum / losers.length else 0
    let profit_factor : Option (Option ℚ) :=
      if losers.length ≠ 0 ∧ avg_loss ≠ 0 then
        if losers.length ≠ 0 then
          some (some |(winners.map TrendReversal.tradeProfit).sum /
            (losers.map TrendReversal.tradeProfit).sum|)
        else some none
      else none
    some
      { total_trades := sells.length, winning := winners.length
        losing := losers.length, total_profit := total_profit
        win_rate := win_rate, avg_win := avg_win, avg_loss := avg_loss
        profit_factor := profit_factor }

end Crossover

/-! Helper lemmas shared by the claim theorems. -/

/-- If optLT a b holds then optLT b a fails. -/
theorem optLT_asymm (a b : Option ℚ) :
    Crossover.optLT a b = true → Crossover.optLT b a = false := by
  unfold Crossover.optLT
  rcases a with _ | x <;> rcases b with _ | y <;> simp
  exact fun hlt => le_of_lt hlt

/-- Indexing the position before the last element is the last element. -/
theorem getD_last :
    ∀ (l : List Crossover.CFrame) (h : l ≠ []),
      l.getD (l.length - 1) Crossover.dfltCFrame = l.getLast h := by
  intro l
  induction l with
  | nil => exact fun h => absurd rfl h
  | cons a t ih =>
    intro h
    cases t with
    | nil => rfl
    | cons b u =>
      have h2 : b :: u ≠ [] := by simp
      calc (a :: b :: u).getD ((a :: b :: u).length - 1) Crossover.dfltCFrame
          = (b :: u).getD ((b :: u).length - 1) Crossover.dfltCFrame := by
            simp [List.getD_cons_succ]
        _ = (b :: u).getLast h2 := ih h2
        _ = (a :: b :: u).getLast h := (List.getLast_cons h2).symm

/-- Lower half of the streak characterisation: the last count bars all rise. -/
theorem streak_mem (w : Nat) (closes : List ℚ) :
    ∀ i, TrendReversal.sma_rising_count w closes i ≤ i + 1 ∧
      ∀ j, j ≤ i → i < j + TrendReversal.sma_rising_count w closes i →
        TrendReversal.sma_rising w closes j = true := by
  intro i
  induction i with
  | zero =>
    by_cases h : TrendReversal.sma_rising w closes 0
    · refine ⟨by simp [TrendReversal.sma_rising_count, h], fun j hj _ => ?_⟩
      have hj0 : j = 0 := Nat.le_zero.mp hj
      exact hj0 ▸ h
    · simp [TrendReversal.sma_rising_count, h]
  | succ n ih =>
    by_cases h : TrendReversal.sma_rising w closes (n + 1)
    · refine ⟨?_, fun j hj hlt => ?_⟩
      · simp only [TrendReversal.sma_rising_count, h, if_true]
        have := ih.1
        omega
      · simp only [TrendReversal.sma_rising_count, h, if_true] at hlt
        rcases Nat.lt_or_ge j (n + 1) with hj2 | hj2
        · exact ih.2 j (by omega) (by omega)
        · have : j = n + 1 := by omega
          exact this ▸ h
    · refine ⟨by simp [TrendReversal.sma_rising_count, h], fun j hj hlt => ?_⟩
      simp only [TrendReversal.sma_rising_count] at hlt
      rw [if_neg h] at hlt
      exact absurd hlt (by omega)

/-- Upper half of the streak characterisation: no longer all-rising suffix. -/
theorem streak_ub (w : Nat) (closes : List ℚ) :
    ∀ i k, k ≤ i + 1 →
      (∀ j, j ≤ i → i < j + k → TrendReversal.sma_rising w closes j = true) →
      k ≤ TrendReversal.sma_rising_count w closes i := by
  intro i
  induction i with
  | zero =>
    intro k hk hall
    match k, hk with
    | 0, _ => exact Nat.zero_le _
    | 1, _ =>
      have h0 := hall 0 le_rfl (by omega)
      simp [TrendReversal.sma_rising_count, h0]
  | succ n ih =>
    intro k hk hall
    cases k with
    | zero => exact Nat.zero_le _
    | succ m =>
      have hr := hall (n + 1) le_rfl (by omega)
      have hm : m ≤ TrendReversal.sma_rising_count w closes n :=
        ih m (by omega) (fun j hj hlt => hall j (by omega) (by omega))
      simp only [TrendReversal.sma_rising_count, hr, if_true]
      omega

/-- Position attribute invariant claimed for reachable states. -/
def PosInv (s : TrendReversal.TRState) : Prop :=
  (s.position = Pos.long → 0 < s.entry_price ∧ 0 < s.position_size) ∧
  (s.position = Pos.flat → s.entry_price = 0 ∧ s.position_size = 0)

/-- Strengthened inductive invariant: position attributes plus a nonnegative
balance that is strictly positive while flat. -/
def StrongInv (s : TrendReversal.TRState) : Prop :=
  PosInv s ∧ 0 ≤ s.balance ∧ (s.position = Pos.flat → 0 < s.balance)

/-- The starting state satisfies the strengthened invariant. -/
theorem strongInv_init (b0 : ℚ) (hb : 0 < b0) :
    StrongInv (TrendReversal.initTRState b0) :=
  ⟨⟨fun h => Pos.noConfusion h, fun _ => ⟨rfl, rfl⟩⟩, le_of_lt hb, fun _ => hb⟩

/-- Buying from a flat state with positive balance preserves the invariant. -/
theorem strongInv_buy (cfg : TrendReversal.TRConfig) (s : TrendReversal.TRState)
    (price : ℚ) (ts i : Nat) (hs : StrongInv s) (hflat : s.position = Pos.flat)
    (hq : 0 < cfg.TRADE_QUANTITY) (hp : 0 < price) :
    StrongInv (TrendReversal.simulate_buy cfg s price ts i) := by
  obtain ⟨_, hb0, hbpos⟩ := hs
  have hbal : 0 < s.balance := hbpos hflat
  have hposn : (TrendReversal.simulate_buy cfg s price ts i).position = Pos.long := rfl
  have hent : (TrendReversal.simulate_buy cfg s price ts i).entry_price = price := rfl
  have hsz : (TrendReversal.simulate_buy cfg s price ts i).position_size =
      if s.balance < cfg.TRADE_QUANTITY * price then s.balance / price
      else cfg.TRADE_QUANTITY := rfl
  have hbb : (TrendReversal.simulate_buy cfg s price ts i).balance =
      s.balance - (if s.balance < cfg.TRADE_QUANTITY * price then s.balance
        else cfg.TRADE_QUANTITY * price) := rfl
  refine ⟨⟨fun _ => ⟨?_, ?_⟩, fun hf => ?_⟩, ?_, fun hf => ?_⟩
  · rw [hent]
    exact hp
  · rw [hsz]
    split_ifs
    exacts [div_pos hbal hp, hq]
  · rw [hposn] at hf
    exact Pos.noConfusion hf
  · rw [hbb]
    split_ifs with h
    · simp
    · have h2 := not_lt.mp h
      linarith
  · rw [hposn] at hf
    exact Pos.noConfusion hf

/-- Selling at a positive price preserves the invariant. -/
theorem strongInv_sell (s : TrendReversal.TRState) (price : ℚ) (ts : Nat)
    (r : ExitReason) (hs : StrongInv s) (hp : 0 < price) :
    StrongInv (TrendReversal.simulate_sell s price ts r).2 := by
  obtain ⟨⟨hlong, hflat⟩, hb0, hbpos⟩ := hs
  by_cases h : s.position ≠ Pos.long ∨ s.position_size = 0
  · have heq : (TrendReversal.simulate_sell s price ts r).2 = s := by
      simp only [TrendReversal.simulate_sell, if_pos h]
    rw [heq]
    exact ⟨⟨hlong, hflat⟩, hb0, hbpos⟩
  · push_neg at h
    have hszpos : 0 < s.position_size := (hlong h.1).2
    have hproc : 0 < s.position_size * price := mul_pos hszpos hp
    have hcond : ¬ (s.position ≠ Pos.long ∨ s.position_size = 0) := by
      push_neg
      exact h
    have hposn : (TrendReversal.simulate_sell s price ts r).2.position = Pos.flat := by
      simp only [TrendReversal.simulate_sell, if_neg hcond]
    have hent : (TrendReversal.simulate_sell s price ts r).2.entry_price = 0 := by
      simp only [TrendReversal.simulate_sell, if_neg hcond]
    have hsz : (TrendReversal.simulate_sell s price ts r).2.position_size = 0 := by
      simp only [TrendReversal.simulate_sell, if_neg hcond]
    have hbb : (TrendReversal.simulate_sell s price ts r).2.balance =
        s.balance + s.position_size * price := by
      simp only [TrendReversal.simulate_sell, if_neg hcond]
    refine ⟨⟨fun hl => ?_, fun _ => ⟨hent, hsz⟩⟩, ?_, fun _ => ?_⟩
    · rw [hposn] at hl
      exact Pos.noConfusion hl
    · rw [hbb]
      linarith
    · rw [hbb]
      linarith

/-- An exit price produced by check_exit_conditions is positive whenever the
stop percentage is below 100, the target percentage is above -100 and the bar
close is positive. -/
theorem exit_price_pos (cfg : TrendReversal.TRConfig) (s : TrendReversal.TRState)
    (row : TrendReversal.TRFrame) (i : Nat) (ep : ℚ) (er : ExitReason)
    (hs : StrongInv s) (hsl : cfg.STOP_LOSS_PCT < 100)
    (htp : -100 < cfg.TAKE_PROFIT_PCT) (hclose : 0 < row.close)
    (h : TrendReversal.check_exit_conditions cfg s row i = some (ep, er)) :
    0 < ep := by
  simp only [TrendReversal.check_exit_conditions] at h
  by_cases hp : s.position ≠ Pos.long
  · rw [if_pos hp] at h
    exact absurd h (by simp)
  · rw [if_neg hp] at h
    have hlongeq : s.position = Pos.long := not_not.mp hp
    have hentry : 0 < s.entry_price := (hs.1.1 hlongeq).1
    split_ifs at h with h1 h2 h3
    · have hep : ep = s.entry_price * (1 - cfg.STOP_LOSS_PCT / 100) :=
        (congrArg Prod.fst (Option.some.inj h)).symm
      rw [hep]
      apply mul_pos hentry
      linarith
    · have hep : ep = s.entry_price * (1 + cfg.TAKE_PROFIT_PCT / 100) :=
        (congrArg Prod.fst (Option.some.inj h)).symm
      rw [hep]
      apply mul_pos hentry
      linarith
    · have hep : ep = row.close := (congrArg Prod.fst (Option.some.inj h)).symm
      rw [hep]
      exact hclose

/-- Invariant preservation by the daily-reset stage. -/
theorem strongInv_reset (s : TrendReversal.TRState) (d : Nat) (hs : StrongInv s) :
    StrongInv { s with current_day := some d, daily_trades := 0 } := hs

/-- Invariant preservation by the entry stage. -/
theorem strongInv_entryStep (cfg : TrendReversal.TRConfig) (s : TrendReversal.TRState)
    (i : Nat) (row : TrendReversal.TRFrame) (hs : StrongInv s)
    (hq : 0 < cfg.TRADE_QUANTITY) (hclose : 0 < row.close) :
    StrongInv (TrendReversal.entryStep cfg s i row) := by
  unfold TrendReversal.entryStep
  by_cases h1 : s.position = Pos.flat ∧ s.daily_trades < cfg.MAX_DAILY_TRADES
  · rw [if_pos h1]
    by_cases h2 : TrendReversal.is_valid_entry cfg row = true
    · rw [if_pos h2]
      exact strongInv_buy cfg s row.close row.timestamp i hs h1.1 hq hclose
    · rw [if_neg h2]
      exact hs
  · rw [if_neg h1]
    exact hs

/-- Invariant preservation by the exit stage. -/
theorem strongInv_exitStage (cfg : TrendReversal.TRConfig) (s1 : TrendReversal.TRState)
    (i : Nat) (row : TrendReversal.TRFrame) (hs1 : StrongInv s1)
    (hsl : cfg.STOP_LOSS_PCT < 100) (htp : -100 < cfg.TAKE_PROFIT_PCT)
    (hclose : 0 < row.close) :
    StrongInv (if s1.position = Pos.long then
      match TrendReversal.check_exit_conditions cfg s1 row i with
      | some (ep, er) => (TrendReversal.simulate_sell s1 ep row.timestamp er).2
      | none => s1
    else s1) := by
  by_cases hl : s1.position = Pos.long
  · rw [if_pos hl]
    rcases hex : TrendReversal.check_exit_conditions cfg s1 row i with _ | ⟨ep, er⟩
    · exact hs1
    · have hepos : 0 < ep := exit_price_pos cfg s1 row i ep er hs1 hsl htp hclose hex
      exact strongInv_sell s1 ep row.timestamp er hs1 hepos
  · rw [if_neg hl]
    exact hs1

/-- Invariant preservation by one whole loop iteration. -/
theorem strongInv_processBar (cfg : TrendReversal.TRConfig) (s : TrendReversal.TRState)
    (i : Nat) (row : TrendReversal.TRFrame) (hs : StrongInv s)
    (hq : 0 < cfg.TRADE_QUANTITY) (hsl : cfg.STOP_LOSS_PCT < 100)
    (htp : -100 < cfg.TAKE_PROFIT_PCT) (hclose : 0 < row.close) :
    StrongInv (TrendReversal.processBar cfg s i row) := by
  have hs1 : StrongInv (if s.current_day ≠ some (dateOf row.timestamp)
      then { s with current_day := some (dateOf row.timestamp), daily_trades := 0 }
      else s) := by
    split_ifs with h
    · exact strongInv_reset s _ hs
    · exact hs
  exact strongInv_entryStep cfg _ i row
    (strongInv_exitStage cfg _ i row hs1 hsl htp hclose) hq hclose

/-- Invariant preservation along the whole loop. -/
theorem strongInv_runLoop (cfg : TrendReversal.TRConfig)
    (hq : 0 < cfg.TRADE_QUANTITY) (hsl : cfg.STOP_LOSS_PCT < 100)
    (htp : -100 < cfg.TAKE_PROFIT_PCT) :
    ∀ (rows : List TrendReversal.TRFrame) (s : TrendReversal.TRState) (i : Nat),
      StrongInv s → (∀ r ∈ rows, 0 < r.close) →
      StrongInv (TrendReversal.runLoop cfg s i rows) := by
  intro rows
  induction rows with
  | nil => intro s i hs _; exact hs
  | cons r rest ih =>
    intro s i hs hrows
    exact ih _ _
      (strongInv_processBar cfg s i r hs hq hsl htp (hrows r (List.mem_cons_self r rest)))
      (fun r2 hr2 => hrows r2 (List.mem_cons_of_mem r hr2))

/-- Position attribute invariant for the crossover backtester. -/
def CPosInv (s : Crossover.CState) : Prop :=
  (s.position = Pos.long → 0 < s.entry_price ∧ 0 < s.position_size) ∧
  (s.position = Pos.flat → s.entry_price = 0 ∧ s.position_size = 0)

/-- Strengthened crossover invariant. -/
def CStrongInv (s : Crossover.CState) : Prop :=
  CPosInv s ∧ 0 ≤ s.balance ∧ (s.position = Pos.flat → 0 < s.balance)

/-- The crossover starting state satisfies the invariant. -/
theorem cInv_init (b0 : ℚ) (hb : 0 < b0) : CStrongInv (Crossover.initCState b0) :=
  ⟨⟨fun h => Pos.noConfusion h, fun _ => ⟨rfl, rfl⟩⟩, le_of_lt hb, fun _ => hb⟩

/-- Crossover buy from flat preserves the invariant. -/
theorem cInv_buy (qty : ℚ) (s : Crossover.CState) (price : ℚ) (ts : Nat)
    (hs : CStrongInv s) (hflat : s.position = Pos.flat) (hq : 0 < qty)
    (hp : 0 < price) : CStrongInv (Crossover.simulate_buy qty s price ts) := by
  obtain ⟨_, hb0, hbpos⟩ := hs
  have hbal : 0 < s.balance := hbpos hflat
  have hposn : (Crossover.simulate_buy qty s price ts).position = Pos.long := rfl
  have hent : (Crossover.simulate_buy qty s price ts).entry_price = price := rfl
  have hsz : (Crossover.simulate_buy qty s price ts).position_size =
      if s.balance < qty * price then s.balance / price else qty := rfl
  have hbb : (Crossover.simulate_buy qty s price ts).balance =
      s.balance - (if s.balance < qty * price then s.balance else qty * price) := rfl
  refine ⟨⟨fun _ => ⟨?_, ?_⟩, fun hf => ?_⟩, ?_, fun hf => ?_⟩
  · rw [hent]
    exact hp
  · rw [hsz]
    split_ifs
    exacts [div_pos hbal hp, hq]
  · rw [hposn] at hf
    exact Pos.noConfusion hf
  · rw [hbb]
    split_ifs with h
    · simp
    · have h2 := not_lt.mp h
      linarith
  · rw [hposn] at hf
    exact Pos.noConfusion hf

/-- Crossover sell at a positive price preserves the invariant. -/
theorem cInv_sell (s : Crossover.CState) (price : ℚ) (ts : Nat)
    (hs : CStrongInv s) (hp : 0 < price) :
    CStrongInv (Crossover.simulate_sell s price ts).2 := by
  obtain ⟨⟨hlong, hflat⟩, hb0, hbpos⟩ := hs
  by_cases h : s.position ≠ Pos.long ∨ s.position_size = 0
  · have heq : (Crossover.simulate_sell s price ts).2 = s := by
      simp only [Crossover.simulate_sell, if_pos h]
    rw [heq]
    exact ⟨⟨hlong, hflat⟩, hb0, hbpos⟩
  · push_neg at h
    have hszpos : 0 < s.position_size := (hlong h.1).2
    have hproc : 0 < s.position_size * price := mul_pos hszpos hp
    have hcond : ¬ (s.position ≠ Pos.long ∨ s.position_size = 0) := by
      push_neg
      exact h
    have hposn : (Crossover.simulate_sell s price ts).2.position = Pos.flat := by
      simp only [Crossover.simulate_sell, if_neg hcond]
    have hent : (Crossover.simulate_sell s price ts).2.entry_price = 0 := by
      simp only [Crossover.simulate_sell, if_neg hcond]
    have hsz : (Crossover.simulate_sell s price ts).2.position_size = 0 := by
      simp only [Crossover.simulate_sell, if_neg hcond]
    have hbb : (Crossover.simulate_sell s price ts).2.balance =
        s.balance + s.position_size * price := by
      simp only [Crossover.simulate_sell, if_neg hcond]
    refine ⟨⟨fun hl => ?_, fun _ => ⟨hent, hsz⟩⟩, ?_, fun _ => ?_⟩
    · rw [hposn] at hl
      exact Pos.noConfusion hl
    · rw [hbb]
      linarith
    · rw [hbb]
      linarith

/-- A position is either flat or long. -/
theorem pos_cases (p : Pos) : p = Pos.flat ∨ p = Pos.long := by
  cases p
  · exact Or.inl rfl
  · exact Or.inr rfl

/-- Crossover trade execution preserves the invariant. -/
theorem cInv_crossExec (qty : ℚ) (s : Crossover.CState) (sg : Signal) (price : ℚ)
    (ts : Nat) (hs : CStrongInv s) (hq : 0 < qty) (hp : 0 < price) :
    CStrongInv (Crossover.crossExec qty s sg price ts) := by
  unfold Crossover.crossExec
  by_cases h1 : sg = Signal.buy ∧ s.position ≠ Pos.long
  · rw [if_pos h1]
    have hflat : s.position = Pos.flat := (pos_cases s.position).resolve_right h1.2
    exact cInv_buy qty s price ts hs hflat hq hp
  · rw [if_neg h1]
    by_cases h2 : sg = Signal.sell ∧ s.position = Pos.long
    · rw [if_pos h2]
      exact cInv_sell s price ts hs hp
    · rw [if_neg h2]
      exact hs

/-- An in-range iloc read returns a member of the series. -/
theorem iloc_mem (df : List Crossover.CFrame) (i : Nat) (h : i < df.length) :
    Crossover.iloc df (i : ℤ) ∈ df := by
  unfold Crossover.iloc
  rw [if_neg (by omega : ¬ ((i : ℤ) < 0))]
  rw [Int.toNat_natCast]
  rw [List.getD_eq_getElem?_getD, List.getElem?_eq_getElem h, Option.getD_some]
  exact List.getElem_mem h

/-- One crossover loop iteration preserves the invariant. -/
theorem cInv_crossStep (qty : ℚ) (df : List Crossover.CFrame) (s : Crossover.CState)
    (i : Nat) (hs : CStrongInv s) (hq : 0 < qty)
    (hposc : ∀ f ∈ df, 0 < f.close) (hi : i < df.length) :
    CStrongInv (Crossover.crossStep qty df s i) := by
  have hp : 0 < (Crossover.iloc df (i : ℤ)).close :=
    hposc _ (iloc_mem df i hi)
  unfold Crossover.crossStep
  show CStrongInv
    (match (Crossover.iloc df (i : ℤ)).sma_short, (Crossover.iloc df (i : ℤ)).sma_long with
    | some _, some _ =>
      match Crossover.loopSignal (Crossover.prevRow df i) (Crossover.iloc df (i : ℤ)) with
      | some sg =>
        if some sg ≠ s.last_signal then
          Crossover.crossExec qty s sg (Crossover.iloc df (i : ℤ)).close
            (Crossover.iloc df (i : ℤ)).timestamp
        else s
      | none => s
    | _, _ => s)
  rcases h1 : (Crossover.iloc df (i : ℤ)).sma_short with _ | a
  · exact hs
  · rcases h2 : (Crossover.iloc df (i : ℤ)).sma_long with _ | b
    · exact hs
    · rcases h3 : Crossover.loopSignal (Crossover.prevRow df i) (Crossover.iloc df (i : ℤ))
          with _ | sg
      · exact hs
      · show CStrongInv (if some sg ≠ s.last_signal then
            Crossover.crossExec qty s sg (Crossover.iloc df (i : ℤ)).close
              (Crossover.iloc df (i : ℤ)).timestamp
          else s)
        split_ifs with h4
        · exact cInv_crossExec qty s sg _ _ hs hq hp
        · exact hs

/-- Invariant preservation along the crossover loop. -/
theorem cInv_crossLoop (qty : ℚ) (df : List Crossover.CFrame)
    (hq : 0 < qty) (hposc : ∀ f ∈ df, 0 < f.close) :
    ∀ (idxs : List Nat) (s : Crossover.CState), CStrongInv s →
      (∀ j ∈ idxs, j < df.length) →
      CStrongInv (Crossover.crossLoop qty df s idxs) := by
  intro idxs
  induction idxs with
  | nil => intro s hs _; exact hs
  | cons j rest ih =>
    intro s hs hall
    exact ih _ (cInv_crossStep qty df s j hs hq hposc (hall j (List.mem_cons_self j rest)))
      (fun k hk => hall k (List.mem_cons_of_mem j hk))

/-- A successful trend reversal sell appends exactly one SELL record carrying
the passed exit reason. -/
theorem sell_trades_append (s : TrendReversal.TRState) (price : ℚ) (ts : Nat)
    (reason : ExitReason) (hlong : s.position = Pos.long)
    (hsz : s.position_size ≠ 0) :
    ∃ t : Trade, (TrendReversal.simulate_sell s price ts reason).2.trades =
      s.trades ++ [t] ∧ t.side = Side.SELL ∧ t.price = price ∧
      t.exit_reason = some reason := by
  have hcond : ¬ (s.position ≠ Pos.long ∨ s.position_size = 0) := by
    push_neg
    exact ⟨hlong, hsz⟩
  refine ⟨{ timestamp := ts, side := .SELL, price := price
            quantity := s.position_size
            profit := some (s.position_size * price - s.position_size * s.entry_price)
            profit_pct := some ((price - s.entry_price) / s.entry_price * 100)
            exit_reason := some reason
            balance_after := s.balance + s.position_size * price }, ?_, rfl, rfl, rfl⟩
  simp [TrendReversal.simulate_sell, if_neg hcond]

/-- A successful crossover sell appends exactly one SELL record that carries
no exit reason. -/
theorem csell_trades_append (s : Crossover.CState) (price : ℚ) (ts : Nat)
    (hlong : s.position = Pos.long) (hsz : s.position_size ≠ 0) :
    ∃ t : Trade, (Crossover.simulate_sell s price ts).2.trades =
      s.trades ++ [t] ∧ t.side = Side.SELL ∧ t.price = price ∧
      t.exit_reason = none := by
  have hcond : ¬ (s.position ≠ Pos.long ∨ s.position_size = 0) := by
    push_neg
    exact ⟨hlong, hsz⟩
  refine ⟨{ timestamp := ts, side := .SELL, price := price
            quantity := s.position_size
            profit := some (s.position_size * price - s.position_size * s.entry_price)
            profit_pct := some ((price - s.entry_price) / s.entry_price * 100)
            portfolio_value := some (s.balance + s.position_size * price)
            balance_after := s.balance + s.position_size * price }, ?_, rfl, rfl, rfl⟩
  simp [Crossover.simulate_sell, if_neg hcond]

/-- Ending the trend reversal run while long appends one END_OF_TEST sell at
the last close. -/
theorem TRrun_long_append (cfg : TrendReversal.TRConfig) (b0 : ℚ) (start : Nat)
    (frames : List TrendReversal.TRFrame) (hne : frames ≠ [])
    (hlong : (TrendReversal.runLoop cfg (TrendReversal.initTRState b0) start
      (frames.drop start)).position = Pos.long)
    (hsz : (TrendReversal.runLoop cfg (TrendReversal.initTRState b0) start
      (frames.drop start)).position_size ≠ 0) :
    ∃ t : Trade, (TrendReversal.TRrun cfg b0 start frames).trades =
      (TrendReversal.runLoop cfg (TrendReversal.initTRState b0) start
        (frames.drop start)).trades ++ [t] ∧
      t.side = Side.SELL ∧ t.price = (frames.getLast hne).close ∧
      t.exit_reason = some ExitReason.END_OF_TEST := by
  have hlast := List.getLast?_eq_getLast_of_ne_nil hne
  obtain ⟨t, ht, h1, h2, h3⟩ := sell_trades_append
    (TrendReversal.runLoop cfg (TrendReversal.initTRState b0) start (frames.drop start))
    (frames.getLast hne).close (frames.getLast hne).timestamp
    ExitReason.END_OF_TEST hlong hsz
  refine ⟨t, ?_, h1, h2, h3⟩
  unfold TrendReversal.TRrun
  simp only [hlast]
  rw [if_pos hlong]
  exact ht

/-- Ending the trend reversal run while flat appends nothing. -/
theorem TRrun_flat_same (cfg : TrendReversal.TRConfig) (b0 : ℚ) (start : Nat)
    (frames : List TrendReversal.TRFrame)
    (hflat : (TrendReversal.runLoop cfg (TrendReversal.initTRState b0) start
      (frames.drop start)).position = Pos.flat) :
    (TrendReversal.TRrun cfg b0 start frames).trades =
      (TrendReversal.runLoop cfg (TrendReversal.initTRState b0) start
        (frames.drop start)).trades := by
  have hnl : (TrendReversal.runLoop cfg (TrendReversal.initTRState b0) start
      (frames.drop start)).position ≠ Pos.long := by
    rw [hflat]
    exact fun hh => Pos.noConfusion hh
  unfold TrendReversal.TRrun
  rcases hlast : frames.getLast? with _ | lastRow
  · rfl
  · show (if (TrendReversal.runLoop cfg (TrendReversal.initTRState b0) start
        (frames.drop start)).position = Pos.long
      then (TrendReversal.simulate_sell (TrendReversal.runLoop cfg
        (TrendReversal.initTRState b0) start (frames.drop start)) lastRow.close
        lastRow.timestamp ExitReason.END_OF_TEST).2
      else TrendReversal.runLoop cfg (TrendReversal.initTRState b0) start
        (frames.drop start)).trades = _
    rw [if_neg hnl]

/-- Ending the crossover run while long appends one reasonless sell at the
last close. -/
theorem crossRun_long_append (qty : ℚ) (df : List Crossover.CFrame) (b0 : ℚ)
    (start : Nat) (hne : df ≠ [])
    (hlong : (Crossover.crossLoop qty df (Crossover.initCState b0)
      (List.range' start (df.length - start))).position = Pos.long)
    (hsz : (Crossover.crossLoop qty df (Crossover.initCState b0)
      (List.range' start (df.length - start))).position_size ≠ 0) :
    ∃ t : Trade, (Crossover.crossRun qty df b0 start).trades =
      (Crossover.crossLoop qty df (Crossover.initCState b0)
        (List.range' start (df.length - start))).trades ++ [t] ∧
      t.side = Side.SELL ∧ t.price = (df.getLast hne).close ∧
      t.exit_reason = none := by
  have hlast := List.getLast?_eq_getLast_of_ne_nil hne
  obtain ⟨t, ht, h1, h2, h3⟩ := csell_trades_append
    (Crossover.crossLoop qty df (Crossover.initCState b0)
      (List.range' start (df.length - start)))
    (df.getLast hne).close (df.getLast hne).timestamp hlong hsz
  refine ⟨t, ?_, h1, h2, h3⟩
  unfold Crossover.crossRun
  simp only [hlast]
  rw [if_pos hlong]
  exact ht

/-- Ending the crossover run while flat appends nothing. -/
theorem crossRun_flat_same (qty : ℚ) (df : List Crossover.CFrame) (b0 : ℚ)
    (start : Nat)
    (hflat : (Crossover.crossLoop qty df (Crossover.initCState b0)
      (List.range' start (df.length - start))).position = Pos.flat) :
    (Crossover.crossRun qty df b0 start).trades =
      (Crossover.crossLoop qty df (Crossover.initCState b0)
        (List.range' start (df.length - start))).trades := by
  have hnl : (Crossover.crossLoop qty df (Crossover.initCState b0)
      (List.range' start (df.length - start))).position ≠ Pos.long := by
    rw [hflat]
    exact fun hh => Pos.noConfusion hh
  unfold Crossover.crossRun
  rcases hlast : df.getLast? with _ | lastRow
  · rfl
  · show (if (Crossover.crossLoop qty df (Crossover.initCState b0)
        (List.range' start (df.length - start))).position = Pos.long
      then (Crossover.simulate_sell (Crossover.crossLoop qty df
        (Crossover.initCState b0) (List.range' start (df.length - start)))
        lastRow.close lastRow.timestamp).2
      else Crossover.crossLoop qty df (Crossover.initCState b0)
        (List.range' start (df.length - start))).trades = _
    rw [if_neg hnl]

/-- Appending a SELL record never changes any daily BUY count. -/
theorem buyCount_append_sell (L : List Trade) (t : Trade) (hts : t.side = Side.SELL)
    (d : Nat) : TrendReversal.buyCount (L ++ [t]) d = TrendReversal.buyCount L d := by
  unfold TrendReversal.buyCount
  rw [List.filter_append]
  have hnil : List.filter
      (fun t => decide (t.side = Side.BUY) && decide (dateOf t.timestamp = d)) [t] = [] := by
    simp [List.filter, hts]
  rw [hnil, List.append_nil]

/-- Appending a BUY record raises exactly the count of its own calendar day. -/
theorem buyCount_append_buy (L : List Trade) (t : Trade) (htb : t.side = Side.BUY)
    (d : Nat) : TrendReversal.buyCount (L ++ [t]) d =
      TrendReversal.buyCount L d + (if dateOf t.timestamp = d then 1 else 0) := by
  unfold TrendReversal.buyCount
  rw [List.filter_append, List.length_append]
  congr 1
  by_cases hd : dateOf t.timestamp = d
  · simp [List.filter, htb, hd]
  · simp [List.filter, htb, hd]

/-- A ledger whose records all date before d has no BUY on day d. -/
theorem buyCount_eq_zero (L : List Trade) (d : Nat)
    (hall : ∀ t ∈ L, dateOf t.timestamp < d) : TrendReversal.buyCount L d = 0 := by
  unfold TrendReversal.buyCount
  rw [List.length_eq_zero]
  rw [List.filter_eq_nil]
  intro t ht
  simp only [Bool.and_eq_true, decide_eq_true_eq, not_and]
  intro _
  exact Nat.ne_of_lt (hall t ht)

/-- A sell attempt never changes any daily BUY count. -/
theorem buyCount_sell_stage (s : TrendReversal.TRState) (price : ℚ) (ts : Nat)
    (reason : ExitReason) (d : Nat) :
    TrendReversal.buyCount (TrendReversal.simulate_sell s price ts reason).2.trades d
      = TrendReversal.buyCount s.trades d := by
  by_cases h : s.position ≠ Pos.long ∨ s.position_size = 0
  · have heq : (TrendReversal.simulate_sell s price ts reason).2 = s := by
      simp only [TrendReversal.simulate_sell, if_pos h]
    rw [heq]
  · have heq : (TrendReversal.simulate_sell s price ts reason).2.trades =
        s.trades ++
          [{ timestamp := ts, side := .SELL, price := price,
             quantity := s.position_size,
             profit := some (s.position_size * price - s.position_size * s.entry_price),
             profit_pct := some ((price - s.entry_price) / s.entry_price * 100),
             exit_reason := some reason,
             balance_after := s.balance + s.position_size * price }] := by
      simp [TrendReversal.simulate_sell, if_neg h]
    rw [heq, buyCount_append_sell]
    rfl

/-- A sell attempt never changes the daily counter or the current day. -/
theorem sell_day_fields (s : TrendReversal.TRState) (price : ℚ) (ts : Nat)
    (reason : ExitReason) :
    (TrendReversal.simulate_sell s price ts reason).2.daily_trades = s.daily_trades ∧
    (TrendReversal.simulate_sell s price ts reason).2.current_day = s.current_day := by
  by_cases h : s.position ≠ Pos.long ∨ s.position_size = 0
  · have heq : (TrendReversal.simulate_sell s price ts reason).2 = s := by
      simp only [TrendReversal.simulate_sell, if_pos h]
    rw [heq]
    exact ⟨rfl, rfl⟩
  · constructor
    · show (TrendReversal.simulate_sell s price ts reason).2.daily_trades = _
      simp only [TrendReversal.simulate_sell, if_neg h]
    · simp only [TrendReversal.simulate_sell, if_neg h]

/-- A sell attempt appends no trade from a day later than the current one. -/
theorem sell_trades_dates (s : TrendReversal.TRState) (price : ℚ) (ts : Nat)
    (reason : ExitReason) (d : Nat) (hts : dateOf ts ≤ d)
    (hall : ∀ t ∈ s.trades, dateOf t.timestamp ≤ d) :
    ∀ t ∈ (TrendReversal.simulate_sell s price ts reason).2.trades,
      dateOf t.timestamp ≤ d := by
  by_cases h : s.position ≠ Pos.long ∨ s.position_size = 0
  · have heq : (TrendReversal.simulate_sell s price ts reason).2 = s := by
      simp only [TrendReversal.simulate_sell, if_pos h]
    rw [heq]
    exact hall
  · have heq : (TrendReversal.simulate_sell s price ts reason).2.trades =
        s.trades ++
          [{ timestamp := ts, side := .SELL, price := price,
             quantity := s.position_size,
             profit := some (s.position_size * price - s.position_size * s.entry_price),
             profit_pct := some ((price - s.entry_price) / s.entry_price * 100),
             exit_reason := some reason,
             balance_after := s.balance + s.position_size * price }] := by
      simp [TrendReversal.simulate_sell, if_neg h]
    rw [heq]
    intro t ht
    rcases List.mem_append.mp ht with h1 | h1
    · exact hall t h1
    · rw [List.mem_singleton] at h1
      rw [h1]
      exact hts

/-- Per-day bookkeeping invariant of the trend reversal loop. -/
def DayInv (cfg : TrendReversal.TRConfig) (s : TrendReversal.TRState) : Prop :=
  (∀ d, TrendReversal.buyCount s.trades d ≤ cfg.MAX_DAILY_TRADES) ∧
  (s.current_day = none → s.trades = []) ∧
  (∀ dc, s.current_day = some dc →
    TrendReversal.buyCount s.trades dc = s.daily_trades ∧
    ∀ t ∈ s.trades, dateOf t.timestamp ≤ dc)

/-- Daily counter reset stage of the loop body. -/
def resetStage (s : TrendReversal.TRState) (row : TrendReversal.TRFrame) :
    TrendReversal.TRState :=
  if s.current_day ≠ some (dateOf row.timestamp)
  then { s with current_day := some (dateOf row.timestamp), daily_trades := 0 }
  else s

/-- Exit check stage of the loop body. -/
def exitStage (cfg : TrendReversal.TRConfig) (s : TrendReversal.TRState) (i : Nat)
    (row : TrendReversal.TRFrame) : TrendReversal.TRState :=
  if s.position = Pos.long then
    match TrendReversal.check_exit_conditions cfg s row i with
    | some (ep, er) => (TrendReversal.simulate_sell s ep row.timestamp er).2
    | none => s
  else s

/-- The loop body is the composition of its three stages. -/
theorem processBar_eq (cfg : TrendReversal.TRConfig) (s : TrendReversal.TRState)
    (i : Nat) (row : TrendReversal.TRFrame) :
    TrendReversal.processBar cfg s i row =
      TrendReversal.entryStep cfg (exitStage cfg (resetStage s row) i row) i row := rfl

/-- The daily reset stage establishes the bookkeeping invariant for the day
of the incoming bar. -/
theorem dayInv_resetStage (cfg : TrendReversal.TRConfig) (s : TrendReversal.TRState)
    (row : TrendReversal.TRFrame) (h : DayInv cfg s)
    (hmono : ∀ dc, s.current_day = some dc → dc ≤ dateOf row.timestamp) :
    DayInv cfg (resetStage s row) ∧
    (resetStage s row).current_day = some (dateOf row.timestamp) := by
  unfold resetStage
  by_cases hcd : s.current_day ≠ some (dateOf row.timestamp)
  · rw [if_pos hcd]
    refine ⟨⟨h.1, fun hn => Option.noConfusion hn, fun dc hdc => ?_⟩, rfl⟩
    obtain rfl : dateOf row.timestamp = dc := Option.some.inj hdc
    rcases hprev : s.current_day with _ | dprev
    · have hnil : s.trades = [] := h.2.1 hprev
      rw [hnil]
      exact ⟨rfl, by simp⟩
    · have hdp := h.2.2 dprev hprev
      have hne : dprev ≠ dateOf row.timestamp := by
        intro he
        exact hcd (by rw [hprev, he])
      have hlt : dprev < dateOf row.timestamp :=
        lt_of_le_of_ne (hmono dprev hprev) hne
      refine ⟨buyCount_eq_zero _ _ (fun t ht => lt_of_le_of_lt (hdp.2 t ht) hlt),
        fun t ht => le_of_lt (lt_of_le_of_lt (hdp.2 t ht) hlt)⟩
  · rw [if_neg hcd]
    exact ⟨h, not_not.mp hcd⟩

/-- The exit stage preserves the bookkeeping invariant. -/
theorem dayInv_exitStage (cfg : TrendReversal.TRConfig) (s : TrendReversal.TRState)
    (i : Nat) (row : TrendReversal.TRFrame) (d : Nat) (h : DayInv cfg s)
    (hday : s.current_day = some d) (hrow : dateOf row.timestamp = d) :
    DayInv cfg (exitStage cfg s i row) ∧ (exitStage cfg s i row).current_day = some d := by
  unfold exitStage
  by_cases hl : s.position = Pos.long
  · rw [if_pos hl]
    rcases hcheck : TrendReversal.check_exit_conditions cfg s row i with _ | ⟨ep, er⟩
    · exact ⟨h, hday⟩
    · have hdf := sell_day_fields s ep row.timestamp er
      refine ⟨⟨fun d2 => ?_, fun hn => ?_, fun dc hdc => ?_⟩, ?_⟩
      · rw [buyCount_sell_stage]
        exact h.1 d2
      · rw [hdf.2, hday] at hn
        exact Option.noConfusion hn
      · rw [hdf.2, hday] at hdc
        obtain rfl : d = dc := Option.some.inj hdc
        refine ⟨?_, ?_⟩
        · rw [buyCount_sell_stage, hdf.1]
          exact (h.2.2 d hday).1
        · exact sell_trades_dates s ep row.timestamp er d (le_of_eq hrow)
            (h.2.2 d hday).2
      · rw [hdf.2]
        exact hday
  · rw [if_neg hl]
    exact ⟨h, hday⟩

/-- Shape of the state after a buy: one BUY record appended, counter and
current day untouched by simulate_buy itself. -/
theorem buy_trades_shape (cfg : TrendReversal.TRConfig) (s : TrendReversal.TRState)
    (price : ℚ) (ts i : Nat) :
    ∃ t : Trade, (TrendReversal.simulate_buy cfg s price ts i).trades =
      s.trades ++ [t] ∧ t.side = Side.BUY ∧ t.timestamp = ts ∧
      (TrendReversal.simulate_buy cfg s price ts i).daily_trades = s.daily_trades ∧
      (TrendReversal.simulate_buy cfg s price ts i).current_day = s.current_day :=
  ⟨{ timestamp := ts, side := .BUY, price := price,
     quantity := if s.balance < cfg.TRADE_QUANTITY * price then s.balance / price
       else cfg.TRADE_QUANTITY,
     balance_after := s.balance - (if s.balance < cfg.TRADE_QUANTITY * price
       then s.balance else cfg.TRADE_QUANTITY * price) },
    rfl, rfl, rfl, rfl, rfl⟩

/-- The entry stage preserves the bookkeeping invariant: a buy can only
happen below the cap and raises count and counter together. -/
theorem dayInv_entryStep (cfg : TrendReversal.TRConfig) (s : TrendReversal.TRState)
    (i : Nat) (row : TrendReversal.TRFrame) (d : Nat) (h : DayInv cfg s)
    (hday : s.current_day = some d) (hrow : dateOf row.timestamp = d) :
    DayInv cfg (TrendReversal.entryStep cfg s i row) ∧
    (TrendReversal.entryStep cfg s i row).current_day = some d := by
  unfold TrendReversal.entryStep
  by_cases h1 : s.position = Pos.flat ∧ s.daily_trades < cfg.MAX_DAILY_TRADES
  · rw [if_pos h1]
    by_cases h2 : TrendReversal.is_valid_entry cfg row = true
    · rw [if_pos h2]
      obtain ⟨t, htr, hside, hts2, hdt, hcd⟩ :=
        buy_trades_shape cfg s row.close row.timestamp i
      have hcount := (h.2.2 d hday).1
      have hdates := (h.2.2 d hday).2
      have htd : dateOf t.timestamp = d := by rw [hts2, hrow]
      refine ⟨⟨fun d2 => ?_, fun hn => ?_, fun dc hdc => ?_⟩, ?_⟩
      · show TrendReversal.buyCount
          (TrendReversal.simulate_buy cfg s row.close row.timestamp i).trades d2 ≤ _
        rw [htr, buyCount_append_buy _ _ hside]
        by_cases hd2 : dateOf t.timestamp = d2
        · rw [if_pos hd2]
          have : d2 = d := by rw [← hd2, htd]
          subst this
          rw [hcount]
          omega
        · rw [if_neg hd2]
          simpa using h.1 d2
      · have hn2 : (TrendReversal.simulate_buy cfg s row.close
            row.timestamp i).current_day = none := hn
        rw [hcd, hday] at hn2
        exact Option.noConfusion hn2
      · have hdc2 : (TrendReversal.simulate_buy cfg s row.close
            row.timestamp i).current_day = some dc := hdc
        rw [hcd, hday] at hdc2
        obtain rfl : d = dc := Option.some.inj hdc2
        constructor
        · show TrendReversal.buyCount
            (TrendReversal.simulate_buy cfg s row.close row.timestamp i).trades d =
            (TrendReversal.simulate_buy cfg s row.close row.timestamp i).daily_trades + 1
          rw [htr, buyCount_append_buy _ _ hside, if_pos htd, hcount, hdt]
        · show ∀ t2 ∈ (TrendReversal.simulate_buy cfg s row.close
              row.timestamp i).trades, dateOf t2.timestamp ≤ d
          rw [htr]
          intro t2 ht2
          rcases List.mem_append.mp ht2 with hm | hm
          · exact hdates t2 hm
          · rw [List.mem_singleton] at hm
            rw [hm]
            exact le_of_eq htd
      · show (TrendReversal.simulate_buy cfg s row.close row.timestamp i).current_day
            = some d
        rw [hcd]
        exact hday
    · rw [if_neg h2]
      exact ⟨h, hday⟩
  · rw [if_neg h1]
    exact ⟨h, hday⟩

/-- One loop iteration preserves the bookkeeping invariant and sets the
current day to the day of the processed bar. -/
theorem dayInv_processBar (cfg : TrendReversal.TRConfig) (s : TrendReversal.TRState)
    (i : Nat) (row : TrendReversal.TRFrame) (h : DayInv cfg s)
    (hmono : ∀ dc, s.current_day = some dc → dc ≤ dateOf row.timestamp) :
    DayInv cfg (TrendReversal.processBar cfg s i row) ∧
    (TrendReversal.processBar cfg s i row).current_day
      = some (dateOf row.timestamp) := by
  rw [processBar_eq]
  obtain ⟨h1, hday1⟩ := dayInv_resetStage cfg s row h hmono
  obtain ⟨h2, hday2⟩ := dayInv_exitStage cfg _ i row (dateOf row.timestamp) h1 hday1 rfl
  exact dayInv_entryStep cfg _ i row (dateOf row.timestamp) h2 hday2 rfl

/-- The bookkeeping invariant holds along the whole loop over day-sorted
bars. -/
theorem dayInv_runLoop (cfg : TrendReversal.TRConfig) :
    ∀ (rows : List TrendReversal.TRFrame) (s : TrendReversal.TRState) (i : Nat),
      DayInv cfg s →
      (∀ dc, s.current_day = some dc → ∀ r ∈ rows, dc ≤ dateOf r.timestamp) →
      List.Pairwise (fun a b => dateOf a.timestamp ≤ dateOf b.timestamp) rows →
      DayInv cfg (TrendReversal.runLoop cfg s i rows) := by
  intro rows
  induction rows with
  | nil => intro s i h _ _; exact h
  | cons r rest ih =>
    intro s i h hmono hpw
    rw [List.pairwise_cons] at hpw
    obtain ⟨hinv2, hday2⟩ := dayInv_processBar cfg s i r h
      (fun dc hdc => hmono dc hdc r (List.mem_cons_self r rest))
    refine ih _ _ hinv2 (fun dc hdc r2 hr2 => ?_) hpw.2
    rw [hday2] at hdc
    obtain rfl : dateOf r.timestamp = dc := Option.some.inj hdc
    exact hpw.1 r2 hr2

/-! Concrete inputs used by witnesses. -/

/-- Witness configuration: take profit 100 percent, stop loss 50 percent. -/
def cfgW1 : TrendReversal.TRConfig :=
  { TREND_SMA_PERIOD := 50, TREND_LOOKBACK := 5, MIN_RED_CANDLE_PCT := 1/10
    MAX_RED_CANDLE_PCT := 2, TAKE_PROFIT_PCT := 100, STOP_LOSS_PCT := 50
    MAX_HOLD_CANDLES := 4, TRADE_QUANTITY := 1, MAX_DAILY_TRADES := 10 }

/-- Witness state: long at entry price 100. -/
def stW1 : TrendReversal.TRState :=
  { balance := 0, position := .long, position_size := 1, entry_price := 100
    entry_candle_idx := 0, daily_trades := 0, current_day := none, trades := [] }

/-- Witness bar whose low is under the stop and whose high is over the target
at the same time. -/
def rowW1 : TrendReversal.TRFrame :=
  { timestamp := 0, open_ := 100, high := 300, low := 40, close := 100
    sma := none, sma_rising_count := 0, is_red := false, candle_pct := 0
    in_uptrend := false }

/-- Witness state for the sizing claim: balance 100, flat. -/
def stW2 : TrendReversal.TRState :=
  { balance := 100, position := .flat, position_size := 0, entry_price := 0
    entry_candle_idx := 0, daily_trades := 0, current_day := none, trades := [] }

/-! Claim theorems. -/

/-- C1: while the trend reversal position is long, a bar whose low reaches the
stop loss price resolves as STOP_LOSS regardless of the bar high; TAKE_PROFIT
is returned only when the stop condition is false; TIME_EXIT, at the bar
close, only when both price conditions are false and the holding time has
reached MAX_HOLD_CANDLES. -/
theorem C1_exit_priority (cfg : TrendReversal.TRConfig) (s : TrendReversal.TRState)
    (row : TrendReversal.TRFrame) (i : Nat) (hpos : s.position = Pos.long) :
    (row.low ≤ s.entry_price * (1 - cfg.STOP_LOSS_PCT / 100) →
      TrendReversal.check_exit_conditions cfg s row i =
        some (s.entry_price * (1 - cfg.STOP_LOSS_PCT / 100), ExitReason.STOP_LOSS)) ∧
    (¬ row.low ≤ s.entry_price * (1 - cfg.STOP_LOSS_PCT / 100) →
      s.entry_price * (1 + cfg.TAKE_PROFIT_PCT / 100) ≤ row.high →
      TrendReversal.check_exit_conditions cfg s row i =
        some (s.entry_price * (1 + cfg.TAKE_PROFIT_PCT / 100), ExitReason.TAKE_PROFIT)) ∧
    (¬ row.low ≤ s.entry_price * (1 - cfg.STOP_LOSS_PCT / 100) →
      ¬ s.entry_price * (1 + cfg.TAKE_PROFIT_PCT / 100) ≤ row.high →
      (cfg.MAX_HOLD_CANDLES : ℤ) ≤ (i : ℤ) - (s.entry_candle_idx : ℤ) →
      TrendReversal.check_exit_conditions cfg s row i =
        some (row.close, ExitReason.TIME_EXIT)) ∧
    (¬ row.low ≤ s.entry_price * (1 - cfg.STOP_LOSS_PCT / 100) →
      ¬ s.entry_price * (1 + cfg.TAKE_PROFIT_PCT / 100) ≤ row.high →
      ¬ (cfg.MAX_HOLD_CANDLES : ℤ) ≤ (i : ℤ) - (s.entry_candle_idx : ℤ) →
      TrendReversal.check_exit_conditions cfg s row i = none) := by
  refine ⟨fun h1 => ?_, fun h1 h2 => ?_, fun h1 h2 h3 => ?_, fun h1 h2 h3 => ?_⟩
  · simp [TrendReversal.check_exit_conditions, hpos, h1]
  · simp [TrendReversal.check_exit_conditions, hpos, h1, h2]
  · simp [TrendReversal.check_exit_conditions, hpos, h1, h2, h3]
  · simp [TrendReversal.check_exit_conditions, hpos, h1, h2, h3]

/-- Witness for C1 at a bar that touches both the stop and the target. -/
theorem C1_exit_priority_witness :
    rowW1.low ≤ stW1.entry_price * (1 - cfgW1.STOP_LOSS_PCT / 100) ∧
    stW1.entry_price * (1 + cfgW1.TAKE_PROFIT_PCT / 100) ≤ rowW1.high ∧
    TrendReversal.check_exit_conditions cfgW1 stW1 rowW1 0 =
      some (stW1.entry_price * (1 - cfgW1.STOP_LOSS_PCT / 100), ExitReason.STOP_LOSS) :=
  ⟨by norm_num [rowW1, stW1, cfgW1], by norm_num [rowW1, stW1, cfgW1],
    (C1_exit_priority cfgW1 stW1 rowW1 0 (by decide)).1
      (by norm_num [rowW1, stW1, cfgW1])⟩

/-- C2: buy sizing.  When the configured quantity would cost more than the
balance, the executed size is balance divided by price and the balance drops
to exactly zero; otherwise the configured quantity is bought and the balance
falls by quantity times price.  Both backtester variants behave this way, and
the concrete instance balance 100, price 1000000, quantity 1 yields size
1/10000 and balance 0. -/
theorem C2_entry_sizing (cfg : TrendReversal.TRConfig) (s : TrendReversal.TRState)
    (qty : ℚ) (c : Crossover.CState) (price : ℚ) (ts i : Nat) (hp : 0 < price) :
    (s.balance < cfg.TRADE_QUANTITY * price →
      (TrendReversal.simulate_buy cfg s price ts i).position_size = s.balance / price ∧
      (TrendReversal.simulate_buy cfg s price ts i).balance = 0) ∧
    (¬ s.balance < cfg.TRADE_QUANTITY * price →
      (TrendReversal.simulate_buy cfg s price ts i).position_size = cfg.TRADE_QUANTITY ∧
      (TrendReversal.simulate_buy cfg s price ts i).balance =
        s.balance - cfg.TRADE_QUANTITY * price) ∧
    (c.balance < qty * price →
      (Crossover.simulate_buy qty c price ts).position_size = c.balance / price ∧
      (Crossover.simulate_buy qty c price ts).balance = 0) ∧
    (¬ c.balance < qty * price →
      (Crossover.simulate_buy qty c price ts).position_size = qty ∧
      (Crossover.simulate_buy qty c price ts).balance = c.balance - qty * price) ∧
    ((TrendReversal.simulate_buy cfgW1 stW2 1000000 0 0).position_size = 1/10000 ∧
      (TrendReversal.simulate_buy cfgW1 stW2 1000000 0 0).balance = 0) := by
  refine ⟨fun h => ?_, fun h => ?_, fun h => ?_, fun h => ?_,
    by norm_num [TrendReversal.simulate_buy, cfgW1, stW2]⟩
  · simp [TrendReversal.simulate_buy, h]
  · simp [TrendReversal.simulate_buy, h]
  · simp [Crossover.simulate_buy, h]
  · simp [Crossover.simulate_buy, h]

/-- Witness for C2 in the undersized-balance branch. -/
theorem C2_entry_sizing_witness :
    stW2.balance < cfgW1.TRADE_QUANTITY * 1000000 ∧
    (TrendReversal.simulate_buy cfgW1 stW2 1000000 0 0).position_size =
      stW2.balance / 1000000 ∧
    (TrendReversal.simulate_buy cfgW1 stW2 1000000 0 0).balance = 0 :=
  ⟨by norm_num [stW2, cfgW1],
    ((C2_entry_sizing cfgW1 stW2 1 (Crossover.initCState 100) 1000000 0 0
      (by norm_num)).1 (by norm_num [stW2, cfgW1])).1,
    ((C2_entry_sizing cfgW1 stW2 1 (Crossover.initCState 100) 1000000 0 0
      (by norm_num)).1 (by norm_num [stW2, cfgW1])).2⟩

/-- C4: the crossover enter condition and exit condition of a pair of
consecutive indicator frames can never hold together, even when the previous
short and long averages are equal, and the early-return signal function of
the live bot agrees with the overwrite-style signal computation of the
backtest loop, so no bar fires both a buy and a sell. -/
theorem C4_signals_mutually_exclusive (previous current : Crossover.CFrame) :
    (Crossover.enterLongCond previous current = true →
      Crossover.exitLongCond previous current = false) ∧
    Crossover.get_signal previous current = Crossover.loopSignal previous current := by
  have hmx : Crossover.enterLongCond previous current = true →
      Crossover.exitLongCond previous current = false := by
    intro h
    unfold Crossover.enterLongCond at h
    rw [Bool.and_eq_true] at h
    have hlt := optLT_asymm _ _ h.2
    simp [Crossover.exitLongCond, hlt]
  refine ⟨hmx, ?_⟩
  unfold Crossover.get_signal Crossover.loopSignal
  by_cases he : Crossover.enterLongCond previous current = true
  · simp [he, hmx he]
  · simp [Bool.not_eq_true] at he
    simp [he]

/-- Witness for C4 in the degenerate tie case: equal previous averages with a
firing enter condition. -/
theorem C4_signals_mutually_exclusive_witness :
    Crossover.enterLongCond ⟨0, 1, some 5, some 5⟩ ⟨1, 1, some 7, some 6⟩ = true ∧
    Crossover.exitLongCond ⟨0, 1, some 5, some 5⟩ ⟨1, 1, some 7, some 6⟩ = false :=
  ⟨by decide,
    (C4_signals_mutually_exclusive ⟨0, 1, some 5, some 5⟩ ⟨1, 1, some 7, some 6⟩).1
      (by decide)⟩

/-- C9: selling while flat or with zero size returns false and changes
nothing, in both variants; an entry attempt while already long changes
nothing, in both variants. -/
theorem C9_noop_transitions :
    (∀ (s : TrendReversal.TRState) (price : ℚ) (ts : Nat) (reason : ExitReason),
      s.position ≠ Pos.long ∨ s.position_size = 0 →
      TrendReversal.simulate_sell s price ts reason = (false, s)) ∧
    (∀ (c : Crossover.CState) (price : ℚ) (ts : Nat),
      c.position ≠ Pos.long ∨ c.position_size = 0 →
      Crossover.simulate_sell c price ts = (false, c)) ∧
    (∀ (cfg : TrendReversal.TRConfig) (s : TrendReversal.TRState) (i : Nat)
      (row : TrendReversal.TRFrame), s.position = Pos.long →
      TrendReversal.entryStep cfg s i row = s) ∧
    (∀ (qty : ℚ) (c : Crossover.CState) (price : ℚ) (ts : Nat),
      c.position = Pos.long →
      Crossover.crossExec qty c Signal.buy price ts = c) := by
  refine ⟨fun s price ts reason h => ?_, fun c price ts h => ?_,
    fun cfg s i row h => ?_, fun qty c price ts h => ?_⟩
  · simp [TrendReversal.simulate_sell, h]
  · simp [Crossover.simulate_sell, h]
  · simp [TrendReversal.entryStep, h]
  · simp [Crossover.crossExec, h]

/-- Example winning SELL record with profit 100. -/
def tWin100 : Trade :=
  { timestamp := 0, side := .SELL, price := 1, quantity := 1, profit := some 100
    profit_pct := some 10, exit_reason := some .TAKE_PROFIT, balance_after := 0 }

/-- Example winning SELL record with profit 50. -/
def tWin50 : Trade :=
  { timestamp := 1, side := .SELL, price := 1, quantity := 1, profit := some 50
    profit_pct := some 5, exit_reason := some .TAKE_PROFIT, balance_after := 0 }

/-- Example losing SELL record with profit -30. -/
def tLoss30 : Trade :=
  { timestamp := 2, side := .SELL, price := 1, quantity := 1, profit := some (-30)
    profit_pct := some (-3), exit_reason := some .STOP_LOSS, balance_after := 0 }

/-- Example ledger of the statistics claim: winners +100 and +50, loser -30. -/
def exLedger : List Trade := [tWin100, tWin50, tLoss30]

/-- Statistics the aggregator produces on exLedger. -/
def stEx : TrendReversal.TRStats :=
  { total_trades := 3, winning := 2, losing := 1, total_profit := 120
    win_rate := 200/3, avg_win := 75, avg_loss := -30
    profit_factor := some (some 5) }

/-- Evaluation of the statistics aggregator on the example ledger. -/
theorem computeStats_exLedger : TrendReversal.computeStats exLedger = some stEx := by
  norm_num [TrendReversal.computeStats, TrendReversal.sellTrades,
    TrendReversal.winningTrades, TrendReversal.losingTrades,
    TrendReversal.tradeProfit, exLedger, tWin100, tWin50, tLoss30, stEx,
    List.filter]

/-- Evaluation of the crossover aggregator on the example ledger: same
numbers, since the guard passes with a loser whose sum is -30. -/
theorem computeStatsCross_exLedger :
    Crossover.computeStatsCross exLedger = some stEx := by
  norm_num [Crossover.computeStatsCross, TrendReversal.sellTrades,
    Crossover.winningTradesCross, Crossover.losingTradesCross,
    TrendReversal.tradeProfit, exLedger, tWin100, tWin50, tLoss30, stEx,
    List.filter]

/-- Counterexample for C7: on a ledger with one winner and no losers the
profit factor line is omitted (none), not reported as infinite, refuting the
claim that it is infinite whenever there are winners but no losers. -/
theorem C7_profit_factor_counterexample :
    (TrendReversal.winningTrades [tWin100]).length = 1 ∧
    (TrendReversal.losingTrades [tWin100]).length = 0 ∧
    (TrendReversal.computeStats [tWin100]).map TrendReversal.TRStats.profit_factor
      = some none := by
  norm_num [TrendReversal.computeStats, TrendReversal.sellTrades,
    TrendReversal.winningTrades, TrendReversal.losingTrades,
    TrendReversal.tradeProfit, tWin100, List.filter]

/-- C7 amended: both aggregators partition SELL trades into winners (profit
strictly positive) and losers (profit at most zero) and report win rate as
winners over total times 100.  The trend reversal aggregator computes the
profit factor only when at least one loser exists: the sum of winner profits
over the absolute sum of loser profits when that sum is nonzero, infinite
when the losers sum to zero, and omitted when there are no losers.  The
crossover aggregator reports it only when losers exist AND their profit sum
(equivalently the average loss) is nonzero, as the absolute value of the
quotient of the sums, omitting the line in every other case, so it never
reports infinity.  On the example ledger with winners +100 and +50 and
loser -30 both report win rate 200/3 (66.7 after rounding to one decimal)
and profit factor 5. -/
theorem C7_statistics (L : List Trade) (st : TrendReversal.TRStats)
    (h : TrendReversal.computeStats L = some st)
    (L2 : List Trade) (st2 : TrendReversal.TRStats)
    (h2 : Crossover.computeStatsCross L2 = some st2) :
    (∀ t ∈ TrendReversal.sellTrades L,
      (t ∈ TrendReversal.winningTrades L ↔ 0 < TrendReversal.tradeProfit t) ∧
      (t ∈ TrendReversal.losingTrades L ↔ TrendReversal.tradeProfit t ≤ 0)) ∧
    (st.win_rate = ((TrendReversal.winningTrades L).length : ℚ) /
      ((TrendReversal.sellTrades L).length : ℚ) * 100) ∧
    ((TrendReversal.losingTrades L).length ≠ 0 →
      0 < |((TrendReversal.losingTrades L).map TrendReversal.tradeProfit).sum| →
      st.profit_factor = some (some
        (((TrendReversal.winningTrades L).map TrendReversal.tradeProfit).sum /
         |((TrendReversal.losingTrades L).map TrendReversal.tradeProfit).sum|))) ∧
    ((TrendReversal.losingTrades L).length ≠ 0 →
      ((TrendReversal.losingTrades L).map TrendReversal.tradeProfit).sum = 0 →
      st.profit_factor = some none) ∧
    ((TrendReversal.losingTrades L).length = 0 → st.profit_factor = none) ∧
    (TrendReversal.computeStats exLedger = some stEx ∧ stEx.win_rate = 200/3 ∧
      round ((200 : ℚ)/3 * 10) = (667 : ℤ) ∧ stEx.profit_factor = some (some 5)) ∧
    (∀ t ∈ TrendReversal.sellTrades L2,
      (t ∈ Crossover.winningTradesCross L2 ↔ 0 < TrendReversal.tradeProfit t) ∧
      (t ∈ Crossover.losingTradesCross L2 ↔ TrendReversal.tradeProfit t ≤ 0)) ∧
    (st2.win_rate = ((Crossover.winningTradesCross L2).length : ℚ) /
      ((TrendReversal.sellTrades L2).length : ℚ) * 100) ∧
    ((Crossover.losingTradesCross L2).length ≠ 0 →
      ((Crossover.losingTradesCross L2).map TrendReversal.tradeProfit).sum ≠ 0 →
      st2.profit_factor = some (some
        |((Crossover.winningTradesCross L2).map TrendReversal.tradeProfit).sum /
         ((Crossover.losingTradesCross L2).map TrendReversal.tradeProfit).sum|)) ∧
    ((Crossover.losingTradesCross L2).length ≠ 0 →
      ((Crossover.losingTradesCross L2).map TrendReversal.tradeProfit).sum = 0 →
      st2.profit_factor = none) ∧
    ((Crossover.losingTradesCross L2).length = 0 → st2.profit_factor = none) ∧
    st2.profit_factor ≠ some none ∧
    Crossover.computeStatsCross exLedger = some stEx := by
  simp only [TrendReversal.computeStats] at h
  simp only [Crossover.computeStatsCross] at h2
  split at h
  · exact absurd h (by simp)
  · have hst := (Option.some.inj h).symm
    subst hst
    by_cases hlen0 : (TrendReversal.sellTrades L2).length = 0
    · rw [if_pos hlen0] at h2
      exact absurd h2 (by simp)
    · rw [if_neg hlen0] at h2
      have hst2 := (Option.some.inj h2).symm
      subst hst2
      refine ⟨fun t ht => ?_, by rfl, fun hlen habs => ?_, fun hlen hsum => ?_,
        fun hlen => ?_, ⟨computeStats_exLedger, by norm_num [stEx], ?_,
          by norm_num [stEx]⟩, fun t ht => ?_, ?_, fun hlen hsum => ?_,
        fun hlen hsum => ?_, fun hlen => ?_, ?_, computeStatsCross_exLedger⟩
      · constructor
        · rw [TrendReversal.winningTrades, List.mem_filter]
          simp [ht]
        · rw [TrendReversal.losingTrades, List.mem_filter]
          simp [ht]
      · show (if _ then _ else _) = _
        rw [if_pos hlen, if_pos habs]
      · show (if _ then _ else _) = _
        rw [if_pos hlen, if_neg (by simp [hsum])]
      · show (if _ then _ else _) = _
        rw [if_neg (by simp [hlen])]
      · rw [round_eq]
        norm_num
      · have htl := List.mem_filter.mp ht
        constructor
        · rw [Crossover.winningTradesCross, List.mem_filter]
          simp [htl.1, htl.2]
        · rw [Crossover.losingTradesCross, List.mem_filter]
          simp [htl.1, htl.2]
      · show (if _ then _ else _) = _
        rw [if_pos (Nat.pos_of_ne_zero hlen0)]
      · have havg : (if (Crossover.losingTradesCross L2).length ≠ 0 then
            ((Crossover.losingTradesCross L2).map TrendReversal.tradeProfit).sum /
              ((Crossover.losingTradesCross L2).length : ℚ) else 0) ≠ 0 := by
          rw [if_pos hlen]
          exact div_ne_zero hsum (Nat.cast_ne_zero.mpr hlen)
        show (if _ then _ else _) = _
        rw [if_pos (⟨hlen, havg⟩ :
          (Crossover.losingTradesCross L2).length ≠ 0 ∧ _), if_pos hlen]
      · have havg0 : (if (Crossover.losingTradesCross L2).length ≠ 0 then
            ((Crossover.losingTradesCross L2).map TrendReversal.tradeProfit).sum /
              ((Crossover.losingTradesCross L2).length : ℚ) else 0) = 0 := by
          rw [if_pos hlen, hsum]
          exact zero_div _
        show (if _ then _ else _) = _
        rw [if_neg (fun hc => hc.2 havg0)]
      · show (if _ then _ else _) = _
        rw [if_neg (fun hc => hc.1 hlen)]
      · by_cases hA : (Crossover.losingTradesCross L2).length ≠ 0 ∧
            (if (Crossover.losingTradesCross L2).length ≠ 0 then
              ((Crossover.losingTradesCross L2).map TrendReversal.tradeProfit).sum /
                ((Crossover.losingTradesCross L2).length : ℚ) else 0) ≠ 0
        · show (if _ then _ else _) ≠ _
          rw [if_pos hA, if_pos hA.1]
          simp
        · show (if _ then _ else _) ≠ _
          rw [if_neg hA]
          simp

/-- Witness for C7 on the example ledger, fed to both aggregators. -/
theorem C7_statistics_witness :
    stEx.win_rate = ((TrendReversal.winningTrades exLedger).length : ℚ) /
      ((TrendReversal.sellTrades exLedger).length : ℚ) * 100 :=
  (C7_statistics exLedger stEx computeStats_exLedger
    exLedger stEx computeStatsCross_exLedger).2.1

/-- C10: the previous row of loop iteration i is df.iloc[i - 1]; when the
backtest start index is 0, iteration 0 therefore reads the LAST row of the
whole series as its previous row, by Python negative-index wraparound,
instead of skipping the bar. -/
theorem C10_previous_row_wraparound (df : List Crossover.CFrame) (h : df ≠ []) :
    Crossover.prevRow df 0 = df.getLast h ∧
    ∀ i : Nat, 0 < i →
      Crossover.prevRow df i = df.getD (i - 1) Crossover.dfltCFrame := by
  constructor
  · unfold Crossover.prevRow Crossover.iloc
    have h1 : ((0 : Nat) : ℤ) - 1 < 0 := by norm_num
    rw [if_pos h1]
    have hlen : 0 < df.length := List.length_pos.mpr h
    have h2 : ((df.length : ℤ) + (((0 : Nat) : ℤ) - 1)).toNat = df.length - 1 := by
      omega
    rw [h2]
    exact getD_last df h
  · intro i hi
    unfold Crossover.prevRow Crossover.iloc
    have h1 : ¬ ((i : ℤ) - 1 < 0) := by omega
    rw [if_neg h1]
    congr 1
    omega

/-- Witness frame list for the wraparound claim. -/
def dfW : List Crossover.CFrame :=
  [⟨0, 1, none, none⟩, ⟨60000, 2, some 3, some 4⟩]

/-- Witness for C10 on a two-row series. -/
theorem C10_previous_row_wraparound_witness :
    Crossover.prevRow dfW 0 = dfW.getLast (by decide) :=
  (C10_previous_row_wraparound dfW (by decide)).1

/-- Default indicator frame used by list indexing. -/
def dfltTRFrame : TrendReversal.TRFrame :=
  { timestamp := 0, open_ := 0, high := 0, low := 0, close := 0, sma := none
    sma_rising_count := 0, is_red := false, candle_pct := 0, in_uptrend := false }

/-- C8: the sma_rising_count column computed by calculate_indicators is, at
every index i, the greatest length of a suffix of bars ending at i in which
the trend moving average strictly increased against its predecessor, it is 0
whenever the average did not strictly increase at i, and it is 0 at index 0
where no predecessor exists. -/
theorem C8_rising_streak (cfg : TrendReversal.TRConfig) (bars : List TrendReversal.Bar)
    (i : Nat) (hi : i < bars.length) :
    ((TrendReversal.calculate_indicators cfg bars).getD i dfltTRFrame).sma_rising_count
      = TrendReversal.sma_rising_count cfg.TREND_SMA_PERIOD (bars.map (·.close)) i ∧
    IsGreatest
      {k | k ≤ i + 1 ∧ ∀ j, j ≤ i → i < j + k →
        TrendReversal.sma_rising cfg.TREND_SMA_PERIOD (bars.map (·.close)) j = true}
      (TrendReversal.sma_rising_count cfg.TREND_SMA_PERIOD (bars.map (·.close)) i) ∧
    (TrendReversal.sma_rising cfg.TREND_SMA_PERIOD (bars.map (·.close)) i = false →
      TrendReversal.sma_rising_count cfg.TREND_SMA_PERIOD (bars.map (·.close)) i = 0) ∧
    TrendReversal.sma_rising_count cfg.TREND_SMA_PERIOD (bars.map (·.close)) 0 = 0 := by
  refine ⟨?_, ⟨⟨(streak_mem _ _ i).1, (streak_mem _ _ i).2⟩,
      fun k hk => streak_ub _ _ i k hk.1 hk.2⟩, fun hf => ?_, ?_⟩
  · unfold TrendReversal.calculate_indicators
    rw [List.getD_eq_getElem?_getD]
    rw [List.getElem?_map]
    rw [List.getElem?_range hi]
    rfl
  · cases i with
    | zero => simp [TrendReversal.sma_rising_count, hf]
    | succ n => simp [TrendReversal.sma_rising_count, hf]
  · have h0 : TrendReversal.sma_rising cfg.TREND_SMA_PERIOD (bars.map (·.close)) 0 = false := by
      unfold TrendReversal.sma_rising
      rcases hm : TrendReversal.sma_at cfg.TREND_SMA_PERIOD (bars.map (·.close)) 0 with _ | v <;>
        simp [hm]
    simp [TrendReversal.sma_rising_count, h0]

/-- A value of getLast? is a member of the list. -/
theorem mem_of_getLast?_trf {frames : List TrendReversal.TRFrame}
    {lastRow : TrendReversal.TRFrame} (hlast : frames.getLast? = some lastRow) :
    lastRow ∈ frames := by
  obtain ⟨hne, heq⟩ := List.mem_getLast?_eq_getLast (Option.mem_def.mpr hlast)
  rw [heq]
  exact List.getLast_mem hne

/-- A value of getLast? is a member of the list (crossover frames). -/
theorem mem_of_getLast?_cf {df : List Crossover.CFrame}
    {lastRow : Crossover.CFrame} (hlast : df.getLast? = some lastRow) :
    lastRow ∈ df := by
  obtain ⟨hne, heq⟩ := List.mem_getLast?_eq_getLast (Option.mem_def.mpr hlast)
  rw [heq]
  exact List.getLast_mem hne

/-- Concrete crossover series whose single evaluated bar fires a buy
crossover, so the run ends long. -/
def dfC6 : List Crossover.CFrame :=
  [⟨0, 10, some 1, some 2⟩, ⟨60000, 11, some 3, some 2⟩]

/-- C3: along a backtest of either variant over bars with positive closes
(starting from a positive balance, with a positive configured quantity and,
for trend reversal, a stop percentage under 100 and a target percentage
above -100), every state reached after any number of loop iterations, and
the final state of the run, satisfy the position invariant: entry price and
size strictly positive while long, both exactly zero while flat.  In
particular every buy and sell execution of either variant preserves it. -/
theorem C3_position_invariant (cfg : TrendReversal.TRConfig) (b0 : ℚ) (start : Nat)
    (frames : List TrendReversal.TRFrame) (hb : 0 < b0)
    (hq : 0 < cfg.TRADE_QUANTITY) (hsl : cfg.STOP_LOSS_PCT < 100)
    (htp : -100 < cfg.TAKE_PROFIT_PCT) (hpos : ∀ f ∈ frames, 0 < f.close)
    (qty b0c : ℚ) (df : List Crossover.CFrame) (startc : Nat)
    (hbc : 0 < b0c) (hqc : 0 < qty) (hposc : ∀ f ∈ df, 0 < f.close) :
    ((∀ n, PosInv (TrendReversal.runLoop cfg (TrendReversal.initTRState b0) start
      ((frames.drop start).take n))) ∧
    PosInv (TrendReversal.TRrun cfg b0 start frames)) ∧
    ((∀ n, CPosInv (Crossover.crossLoop qty df (Crossover.initCState b0c)
      ((List.range' startc (df.length - startc)).take n))) ∧
    CPosInv (Crossover.crossRun qty df b0c startc)) := by
  constructor
  · have hloop : ∀ rows : List TrendReversal.TRFrame, (∀ r ∈ rows, 0 < r.close) →
        StrongInv (TrendReversal.runLoop cfg (TrendReversal.initTRState b0) start rows) :=
      fun rows hr =>
        strongInv_runLoop cfg hq hsl htp rows _ start (strongInv_init b0 hb) hr
    have hdropped : ∀ r ∈ frames.drop start, 0 < r.close :=
      fun r hr => hpos r (List.drop_subset start frames hr)
    constructor
    · intro n
      exact (hloop _ (fun r hr => hdropped r (List.take_subset n _ hr))).1
    · unfold TrendReversal.TRrun
      rcases hlast : frames.getLast? with _ | lastRow
      · exact (hloop _ hdropped).1
      · have hmem : lastRow ∈ frames := mem_of_getLast?_trf hlast
        have hlp : 0 < lastRow.close := hpos lastRow hmem
        show PosInv (if (TrendReversal.runLoop cfg (TrendReversal.initTRState b0) start
            (frames.drop start)).position = Pos.long
          then (TrendReversal.simulate_sell (TrendReversal.runLoop cfg
            (TrendReversal.initTRState b0) start (frames.drop start)) lastRow.close
            lastRow.timestamp ExitReason.END_OF_TEST).2
          else TrendReversal.runLoop cfg (TrendReversal.initTRState b0) start
            (frames.drop start))
        by_cases hlong : (TrendReversal.runLoop cfg (TrendReversal.initTRState b0) start
            (frames.drop start)).position = Pos.long
        · rw [if_pos hlong]
          exact (strongInv_sell _ lastRow.close lastRow.timestamp .END_OF_TEST
            (hloop _ hdropped) hlp).1
        · rw [if_neg hlong]
          exact (hloop _ hdropped).1
  · have hcloop : ∀ idxs : List Nat, (∀ j ∈ idxs, j < df.length) →
        CStrongInv (Crossover.crossLoop qty df (Crossover.initCState b0c) idxs) :=
      fun idxs hj => cInv_crossLoop qty df hqc hposc idxs _ (cInv_init b0c hbc) hj
    have hidx : ∀ j ∈ List.range' startc (df.length - startc), j < df.length := by
      intro j hj
      have hj2 := List.mem_range'_1.mp hj
      omega
    constructor
    · intro n
      exact (hcloop _ (fun j hj => hidx j (List.take_subset n _ hj))).1
    · unfold Crossover.crossRun
      rcases hlast : df.getLast? with _ | lastRow
      · exact (hcloop _ hidx).1
      · have hmem : lastRow ∈ df := mem_of_getLast?_cf hlast
        have hlp : 0 < lastRow.close := hposc lastRow hmem
        show CPosInv (if (Crossover.crossLoop qty df (Crossover.initCState b0c)
            (List.range' startc (df.length - startc))).position = Pos.long
          then (Crossover.simulate_sell (Crossover.crossLoop qty df
            (Crossover.initCState b0c) (List.range' startc (df.length - startc)))
            lastRow.close lastRow.timestamp).2
          else Crossover.crossLoop qty df (Crossover.initCState b0c)
            (List.range' startc (df.length - startc)))
        by_cases hlong : (Crossover.crossLoop qty df (Crossover.initCState b0c)
            (List.range' startc (df.length - startc))).position = Pos.long
        · rw [if_pos hlong]
          exact (cInv_sell _ lastRow.close lastRow.timestamp (hcloop _ hidx) hlp).1
        · rw [if_neg hlong]
          exact (hcloop _ hidx).1

/-- Witness for C3 on a one-bar trend reversal series and a two-bar
crossover series. -/
theorem C3_position_invariant_witness :
    PosInv (TrendReversal.TRrun cfgW1 1000 0
      [{ timestamp := 0, open_ := 2, high := 2, low := 1, close := 1, sma := none
         sma_rising_count := 0, is_red := true, candle_pct := 50
         in_uptrend := false }]) ∧
    CPosInv (Crossover.crossRun 1 dfC6 1000 1) :=
  ⟨(C3_position_invariant cfgW1 1000 0 _ (by norm_num) (by norm_num [cfgW1])
    (by norm_num [cfgW1]) (by norm_num [cfgW1])
    (by intro f hf; rw [List.mem_singleton] at hf; rw [hf]; norm_num)
    1 1000 dfC6 1 (by norm_num) (by norm_num)
    (by intro f hf; fin_cases hf <;> norm_num [dfC6])).1.2,
   (C3_position_invariant cfgW1 1000 0
    [{ timestamp := 0, open_ := 2, high := 2, low := 1, close := 1, sma := none
       sma_rising_count := 0, is_red := true, candle_pct := 50
       in_uptrend := false }] (by norm_num) (by norm_num [cfgW1])
    (by norm_num [cfgW1]) (by norm_num [cfgW1])
    (by intro f hf; rw [List.mem_singleton] at hf; rw [hf]; norm_num)
    1 1000 dfC6 1 (by norm_num) (by norm_num)
    (by intro f hf; fin_cases hf <;> norm_num [dfC6])).2.2⟩

/-- Counterexample for C6 as stated: the crossover run below ends its loop
long and force-closes at the final close, but the appended SELL record
carries no exit reason key at all (none), not the reason END_OF_TEST. -/
theorem C6_end_of_test_counterexample :
    (Crossover.crossLoop 1 dfC6 (Crossover.initCState 1000)
      (List.range' 1 (dfC6.length - 1))).position = Pos.long ∧
    ((Crossover.crossRun 1 dfC6 1000 1).trades.map Trade.exit_reason).getLast?
      = some none := by
  constructor
  · norm_num +decide [Crossover.crossLoop, Crossover.crossStep, Crossover.iloc,
      Crossover.prevRow, Crossover.loopSignal, Crossover.enterLongCond,
      Crossover.exitLongCond, Crossover.optLE, Crossover.optLT,
      Crossover.crossExec, Crossover.simulate_buy, Crossover.initCState,
      dfC6, List.range']
  · norm_num +decide [Crossover.crossRun, Crossover.crossLoop, Crossover.crossStep,
      Crossover.iloc, Crossover.prevRow, Crossover.loopSignal,
      Crossover.enterLongCond, Crossover.exitLongCond, Crossover.optLE,
      Crossover.optLT, Crossover.crossExec, Crossover.simulate_buy,
      Crossover.simulate_sell, Crossover.initCState, dfC6, List.range']

/-- C6 amended: a backtest of either variant that finishes its loop while
long appends exactly one SELL trade at the final bar close (and appends
nothing when it finishes flat); the trend reversal variant records exit
reason END_OF_TEST on that trade, while the crossover variant records no
exit reason. -/
theorem C6_end_of_test (cfg : TrendReversal.TRConfig) (b0 : ℚ) (start : Nat)
    (frames : List TrendReversal.TRFrame) (hb : 0 < b0)
    (hq : 0 < cfg.TRADE_QUANTITY) (hsl : cfg.STOP_LOSS_PCT < 100)
    (htp : -100 < cfg.TAKE_PROFIT_PCT) (hpos : ∀ f ∈ frames, 0 < f.close)
    (hne : frames ≠ []) (qty b0c : ℚ) (df : List Crossover.CFrame) (startc : Nat)
    (hbc : 0 < b0c) (hqc : 0 < qty) (hposc : ∀ f ∈ df, 0 < f.close)
    (hnec : df ≠ []) :
    ((TrendReversal.runLoop cfg (TrendReversal.initTRState b0) start
        (frames.drop start)).position = Pos.long →
      ∃ t : Trade, (TrendReversal.TRrun cfg b0 start frames).trades =
        (TrendReversal.runLoop cfg (TrendReversal.initTRState b0) start
          (frames.drop start)).trades ++ [t] ∧
        t.side = Side.SELL ∧ t.price = (frames.getLast hne).close ∧
        t.exit_reason = some ExitReason.END_OF_TEST) ∧
    ((TrendReversal.runLoop cfg (TrendReversal.initTRState b0) start
        (frames.drop start)).position = Pos.flat →
      (TrendReversal.TRrun cfg b0 start frames).trades =
        (TrendReversal.runLoop cfg (TrendReversal.initTRState b0) start
          (frames.drop start)).trades) ∧
    ((Crossover.crossLoop qty df (Crossover.initCState b0c)
        (List.range' startc (df.length - startc))).position = Pos.long →
      ∃ t : Trade, (Crossover.crossRun qty df b0c startc).trades =
        (Crossover.crossLoop qty df (Crossover.initCState b0c)
          (List.range' startc (df.length - startc))).trades ++ [t] ∧
        t.side = Side.SELL ∧ t.price = (df.getLast hnec).close ∧
        t.exit_reason = none) ∧
    ((Crossover.crossLoop qty df (Crossover.initCState b0c)
        (List.range' startc (df.length - startc))).position = Pos.flat →
      (Crossover.crossRun qty df b0c startc).trades =
        (Crossover.crossLoop qty df (Crossover.initCState b0c)
          (List.range' startc (df.length - startc))).trades) := by
  refine ⟨fun hlong => ?_, fun hflat => TRrun_flat_same cfg b0 start frames hflat,
    fun hlong => ?_, fun hflat => crossRun_flat_same qty df b0c startc hflat⟩
  · have hinv := strongInv_runLoop cfg hq hsl htp (frames.drop start) _ start
      (strongInv_init b0 hb) (fun r hr => hpos r (List.drop_subset start frames hr))
    exact TRrun_long_append cfg b0 start frames hne hlong
      (ne_of_gt (hinv.1.1 hlong).2)
  · have hinv := cInv_crossLoop qty df hqc hposc
      (List.range' startc (df.length - startc)) _ (cInv_init b0c hbc)
      (fun j hj => by
        have hj2 := List.mem_range'_1.mp hj
        omega)
    exact crossRun_long_append qty df b0c startc hnec hlong
      (ne_of_gt (hinv.1.1 hlong).2)

/-- Configuration of the daily-cap scenario: at most one trade per day, wide
entry band, take profit 100 percent, stop loss 50 percent. -/
def cfgC5 : TrendReversal.TRConfig :=
  { TREND_SMA_PERIOD := 50, TREND_LOOKBACK := 5, MIN_RED_CANDLE_PCT := 0
    MAX_RED_CANDLE_PCT := 10, TAKE_PROFIT_PCT := 100, STOP_LOSS_PCT := 50
    MAX_HOLD_CANDLES := 100, TRADE_QUANTITY := 1, MAX_DAILY_TRADES := 1 }

/-- First bar of day 0: a valid entry signal. -/
def fC5a : TrendReversal.TRFrame :=
  { timestamp := 0, open_ := 101, high := 101, low := 99, close := 100
    sma := none, sma_rising_count := 0, is_red := true, candle_pct := 1
    in_uptrend := true }

/-- Second bar of day 0: hits the profit target and is itself a valid entry
signal again. -/
def fC5b : TrendReversal.TRFrame :=
  { timestamp := 1000, open_ := 201, high := 250, low := 150, close := 160
    sma := none, sma_rising_count := 0, is_red := true, candle_pct := 1
    in_uptrend := true }

/-- Bar of day 1: a valid entry signal. -/
def fC5c : TrendReversal.TRFrame :=
  { timestamp := 86400000, open_ := 121, high := 130, low := 110, close := 120
    sma := none, sma_rising_count := 0, is_red := true, candle_pct := 1
    in_uptrend := true }

/-- Three-bar daily-cap scenario series. -/
def framesC5 : List TrendReversal.TRFrame := [fC5a, fC5b, fC5c]

/-- C5: over day-sorted bars, the number of BUY records on any single
calendar day never exceeds MAX_DAILY_TRADES, while sells are never blocked;
in the concrete scenario with cap 1, two valid entries on day 0 produce one
BUY (the second is rejected) and the valid entry on day 1 succeeds. -/
theorem C5_daily_cap (cfg : TrendReversal.TRConfig) (b0 : ℚ) (start : Nat)
    (frames : List TrendReversal.TRFrame)
    (hsorted : List.Pairwise (fun a b => dateOf a.timestamp ≤ dateOf b.timestamp)
      (frames.drop start)) :
    (∀ d, TrendReversal.buyCount (TrendReversal.TRrun cfg b0 start frames).trades d
      ≤ cfg.MAX_DAILY_TRADES) ∧
    (TrendReversal.is_valid_entry cfgC5 fC5a = true ∧
     TrendReversal.is_valid_entry cfgC5 fC5b = true ∧
     (TrendReversal.TRrun cfgC5 1000 0 framesC5).trades.map Trade.side =
       [Side.BUY, Side.SELL, Side.BUY, Side.SELL] ∧
     TrendReversal.buyCount (TrendReversal.TRrun cfgC5 1000 0 framesC5).trades 0 = 1 ∧
     TrendReversal.buyCount (TrendReversal.TRrun cfgC5 1000 0 framesC5).trades 1 = 1) := by
  have hinit : DayInv cfg (TrendReversal.initTRState b0) :=
    ⟨fun d => Nat.zero_le _, fun _ => rfl, fun dc hdc => Option.noConfusion hdc⟩
  have hloop : DayInv cfg (TrendReversal.runLoop cfg (TrendReversal.initTRState b0)
      start (frames.drop start)) :=
    dayInv_runLoop cfg _ _ start hinit (fun dc hdc => Option.noConfusion hdc) hsorted
  constructor
  · intro d
    unfold TrendReversal.TRrun
    rcases hlast : frames.getLast? with _ | lastRow
    · exact hloop.1 d
    · show TrendReversal.buyCount
        (if (TrendReversal.runLoop cfg (TrendReversal.initTRState b0) start
            (frames.drop start)).position = Pos.long
          then (TrendReversal.simulate_sell (TrendReversal.runLoop cfg
            (TrendReversal.initTRState b0) start (frames.drop start)) lastRow.close
            lastRow.timestamp ExitReason.END_OF_TEST).2
          else TrendReversal.runLoop cfg (TrendReversal.initTRState b0) start
            (frames.drop start)).trades d ≤ _
      split_ifs with hl
      · rw [buyCount_sell_stage]
        exact hloop.1 d
      · exact hloop.1 d
  · norm_num +decide [TrendReversal.TRrun, TrendReversal.runLoop,
      TrendReversal.processBar, TrendReversal.entryStep,
      TrendReversal.check_exit_conditions, TrendReversal.simulate_buy,
      TrendReversal.simulate_sell, TrendReversal.is_valid_entry,
      TrendReversal.initTRState, TrendReversal.buyCount, dateOf,
      cfgC5, framesC5, fC5a, fC5b, fC5c, List.filter]

/-- Witness for C5 applying the cap bound on day 0 of the scenario. -/
theorem C5_daily_cap_witness :
    TrendReversal.buyCount (TrendReversal.TRrun cfgC5 1000 0 framesC5).trades 0
      ≤ cfgC5.MAX_DAILY_TRADES :=
  (C5_daily_cap cfgC5 1000 0 framesC5 (by decide)).1 0

/-- Witness for C6: a one-bar trend reversal run that buys on its only bar
ends long, so the forced END_OF_TEST close appends one SELL. -/
theorem C6_end_of_test_witness :
    ∃ t : Trade, (TrendReversal.TRrun cfgW1 1000 0 [fC5a]).trades =
      (TrendReversal.runLoop cfgW1 (TrendReversal.initTRState 1000) 0
        ([fC5a].drop 0)).trades ++ [t] ∧
      t.side = Side.SELL ∧ t.price = ([fC5a].getLast (by decide)).close ∧
      t.exit_reason = some ExitReason.END_OF_TEST :=
  (C6_end_of_test cfgW1 1000 0 [fC5a] (by norm_num) (by norm_num [cfgW1])
    (by norm_num [cfgW1]) (by norm_num [cfgW1])
    (by intro f hf; fin_cases hf; norm_num [fC5a]) (by decide)
    1 1000 dfC6 1 (by norm_num) (by norm_num)
    (by intro f hf; fin_cases hf <;> norm_num [dfC6]) (by decide)).1
    (by norm_num +decide [TrendReversal.runLoop, TrendReversal.processBar,
      TrendReversal.entryStep, TrendReversal.check_exit_conditions,
      TrendReversal.simulate_buy, TrendReversal.simulate_sell,
      TrendReversal.is_valid_entry, TrendReversal.initTRState, dateOf,
      cfgW1, fC5a])

/-- Witness bars for the streak claim. -/
def barsW : List TrendReversal.Bar := [⟨0, 1, 1, 1, 1⟩, ⟨60000, 2, 2, 2, 2⟩]

/-- Witness for C8 at index 1 of a two-bar series. -/
theorem C8_rising_streak_witness :
    ((TrendReversal.calculate_indicators cfgW1 barsW).getD 1 dfltTRFrame).sma_rising_count
      = TrendReversal.sma_rising_count cfgW1.TREND_SMA_PERIOD (barsW.map (·.close)) 1 :=
  (C8_rising_streak cfgW1 barsW 1 (by decide)).1

/-- Witness for C9: a flat-state sell and a long-state entry attempt. -/
theorem C9_noop_transitions_witness :
    TrendReversal.simulate_sell (TrendReversal.initTRState 100) 5 0 ExitReason.STOP_LOSS =
      (false, TrendReversal.initTRState 100) ∧
    Crossover.simulate_sell (Crossover.initCState 100) 5 0 =
      (false, Crossover.initCState 100) ∧
    TrendReversal.entryStep cfgW1 stW1 0 rowW1 = stW1 ∧
    Crossover.crossExec 1 { Crossover.initCState 100 with position := .long }
      Signal.buy 5 0 = { Crossover.initCState 100 with position := .long } :=
  ⟨C9_noop_transitions.1 _ 5 0 _ (Or.inl (by decide)),
    C9_noop_transitions.2.1 _ 5 0 (Or.inl (by decide)),
    C9_noop_transitions.2.2.1 cfgW1 stW1 0 rowW1 (by decide),
    C9_noop_transitions.2.2.2 1 _ 5 0 (by decide)⟩

end BybitBot
